import Mathlib

/-!
Fee distribution hook of the `x/fees` module

A shallow embedding of `Keeper.PostTxProcessing` (`x/fees/keeper/evm_hooks.go`) and of the
store keys of `x/fees/types/keys.go`.

The hook is stateful Go code: it reads the parameter store and the fee registry through the
context, calls the bank keeper, appends to the context's event manager and to the telemetry
sink, and it can panic inside the `sdk` helpers it calls.  Here it is a function from the
keeper's capabilities, the context, the message and the receipt to an `Outcome` (normal
return with `nil` or an error, or a panic) and the context afterwards.

The arithmetic of `sdk.Int` and `sdk.Dec` is modelled on unbounded integers with the bit
length guards of the library made explicit: each guarded operation returns `Except`, the
error side being the panic.
-/

namespace Fees

/-! ## `sdk.Int` -/

/-- The constant `maxBitLen` of the `sdk` package (`types/int.go`): `sdk.Int` panics on
values whose bit length exceeds it. -/
def maxBitLen : Nat := 256

/-- Number of bits of `n`, counted by halving; `fuel` bounds the number of halvings. -/
def bitLenAux : Nat → Nat → Nat
  | 0, _ => 0
  | fuel + 1, n => if n = 0 then 0 else bitLenAux fuel (n / 2) + 1

/-- The method `BitLen` of `big.Int`: the length of the absolute value in bits, 0 for 0. -/
def BitLen (x : Int) : Nat := bitLenAux x.natAbs x.natAbs

/-- The type `sdk.Int`: a wrapped big integer. -/
structure SdkInt where
  i : Int
  deriving DecidableEq, Repr

/-- The constructor `sdk.NewIntFromUint64`: never panics. -/
def NewIntFromUint64 (n : Nat) : SdkInt := ⟨(n : Int)⟩

/-- The constructor `sdk.NewIntFromBigInt`: panics when the bit length is out of bound. -/
def NewIntFromBigInt (i : Int) : Except String SdkInt :=
  if BitLen i > maxBitLen then .error "NewIntFromBigInt() out of bound" else .ok ⟨i⟩

/-- The method `Int.Mul`: the product, with the overflow guards before and after it. The
first guard is computed on Go `int`, so the difference is taken in the integers. -/
def SdkInt.Mul (i i2 : SdkInt) : Except String SdkInt :=
  if ((BitLen i.i : Int) + (BitLen i2.i : Int) - 1 > (maxBitLen : Int)) then
    .error "Int overflow"
  else
    let res := i.i * i2.i
    if BitLen res > maxBitLen then .error "Int overflow" else .ok ⟨res⟩

/-- The method `Int.IsInt64`: whether the value fits a signed 64-bit integer. -/
def SdkInt.IsInt64 (i : SdkInt) : Bool := decide (-(2 : Int) ^ 63 ≤ i.i ∧ i.i < (2 : Int) ^ 63)

/-- The method `Int.Int64`, used by the hook only under `IsInt64`. -/
def SdkInt.Int64 (i : SdkInt) : Int := i.i

/-! ## `sdk.Dec` -/

/-- Number of decimal places of `sdk.Dec`. -/
def Precision : Nat := 18

/-- The constant `precisionReuse`, ten to the power `Precision`. -/
def precisionReuse : Int := 10 ^ Precision

/-- The constant `fivePrecision`, half of `precisionReuse`. -/
def fivePrecision : Int := precisionReuse / 2

/-- The constant `DecimalPrecisionBits`. -/
def DecimalPrecisionBits : Nat := 60

/-- The constant `decimalTruncateBits`. -/
def decimalTruncateBits : Nat := DecimalPrecisionBits - 1

/-- The constant `maxDecBitLen` of the `sdk` package (`types/decimal.go`): bound on the bit
length of the integer that backs a `sdk.Dec`. -/
def maxDecBitLen : Nat := maxBitLen + decimalTruncateBits

/-- The type `sdk.Dec`: the backing integer `i` stands for `i / 10^18`. -/
structure Dec where
  i : Int
  deriving DecidableEq, Repr

/-- The method `Int.ToDec`: the integer scaled by `10^18`. -/
def SdkInt.ToDec (i : SdkInt) : Dec := ⟨i.i * precisionReuse⟩

/-- The non-negative branch of `chopPrecisionAndRound`: truncated quotient and remainder by
`10^18`, then banker's rounding on the remainder. -/
def chopPrecisionAndRoundNonneg (d : Int) : Int :=
  let quo := Int.tdiv d precisionReuse
  let rem := Int.tmod d precisionReuse
  if rem = 0 then quo
  else if rem < fivePrecision then quo
  else if rem > fivePrecision then quo + 1
  else if quo % 2 = 0 then quo
  else quo + 1

/-- The helper `chopPrecisionAndRound`: a negative argument is negated, chopped and negated
back. -/
def chopPrecisionAndRound (d : Int) : Int :=
  if d < 0 then -chopPrecisionAndRoundNonneg (-d) else chopPrecisionAndRoundNonneg d

/-- The helper `chopPrecisionAndTruncate`: `big.Int.Quo`, the quotient truncated toward
zero. -/
def chopPrecisionAndTruncate (d : Int) : Int := Int.tdiv d precisionReuse

/-- The method `Dec.Mul`: product of the backing integers, chopped with rounding, with the
overflow guard. -/
def Dec.Mul (d d2 : Dec) : Except String Dec :=
  let chopped := chopPrecisionAndRound (d.i * d2.i)
  if BitLen chopped > maxDecBitLen then .error "Int overflow" else .ok ⟨chopped⟩

/-- The method `Dec.TruncateInt`: the decimals are cut off and the result is rebuilt with
`NewIntFromBigInt`. -/
def Dec.TruncateInt (d : Dec) : Except String SdkInt :=
  NewIntFromBigInt (chopPrecisionAndTruncate d.i)

/-! ## Data model -/

/-- An Ethereum address (`common.Address`), identified by its `String()` rendering, the only
observation the hook makes of it besides using it as the registry key. -/
structure Address where
  hex : String
  deriving DecidableEq, Repr

/-- An account address (`sdk.AccAddress`): raw bytes. -/
abbrev AccAddress := List Nat

/-- The registry record `types.Fee`. -/
structure Fee where
  ContractAddress : String
  DeployerAddress : String
  WithdrawAddress : String
  deriving DecidableEq, Repr

/-- The module parameters `types.Params`, as far as the hook reads them. -/
structure Params where
  EnableFees : Bool
  DeveloperShares : Dec
  deriving DecidableEq, Repr

/-- The message `core.Message`, as far as the hook reads it. `To` is a nullable pointer. -/
structure Message where
  From : Address
  To : Option Address
  GasPrice : Int
  deriving DecidableEq, Repr

/-- The receipt `ethtypes.Receipt`, as far as the hook reads it. `GasUsed` is a `uint64`. -/
structure Receipt where
  GasUsed : Nat
  deriving DecidableEq, Repr

/-- One `sdk.Coin`. -/
structure Coin where
  Denom : String
  Amount : SdkInt
  deriving DecidableEq, Repr

/-- The type `sdk.Coins`. -/
abbrev Coins := List Coin

/-- One call of `bankKeeper.SendCoinsFromModuleToAccount`. -/
structure Transfer where
  senderModule : String
  recipient : AccAddress
  amt : Coins
  deriving DecidableEq, Repr

/-- One `sdk.Event`: its type and its attributes (key, value). -/
structure Event where
  Ty : String
  Attributes : List (String × String)
  deriving DecidableEq, Repr

/-- One call of `telemetry.IncrCounterWithLabels`. The value is a `float32`; the conversion
of an integer always yields an integral value, which `val` holds exactly. -/
structure MetricSample where
  keys : List String
  val : Int
  labels : List (String × String)
  deriving DecidableEq, Repr

/-- The error built by `sdkerrors.Wrapf`: the wrapped cause and the formatted description. -/
structure WrappedError where
  cause : String
  description : String
  deriving DecidableEq, Repr

/-- How an invocation of the hook ends: a normal return of `nil` (`none`) or of an error, or
a panic. -/
inductive Outcome where
  | returned (err : Option WrappedError)
  | panicked (reason : String)
  deriving DecidableEq, Repr

/-- The state reached through `sdk.Context`: the parameter stores, the primary index of the
fee registry (`GetFee`), and the three logs the hook appends to. The last two fields are the
reverse indices of the registry, kept under `KeyPrefixDeployer` and `KeyPrefixWithdraw`;
the keeper methods that maintain them are not among the sources and the hook has no access
path to them. -/
structure Ctx where
  params : Params
  evmDenom : String
  fees : Address → Option Fee
  bankCalls : List Transfer
  events : List Event
  telemetry : List MetricSample
  deployerIndex : AccAddress → List Address := fun _ => []
  withdrawIndex : AccAddress → List Address := fun _ => []

/-- The keeper: the name of the fee collector module account, and the two capabilities of
other packages the hook calls. `bankSend` is the answer of
`bankKeeper.SendCoinsFromModuleToAccount` (`none` for a `nil` error);
`accAddressFromBech32` is `sdk.AccAddressFromBech32`, whose failure makes
`sdk.MustAccAddressFromBech32` panic. -/
structure Keeper where
  feeCollectorName : String
  bankSend : Transfer → Option String
  accAddressFromBech32 : String → Except String AccAddress

/-! ## Constants -/

/-- The constant `ModuleName` of `x/fees/types/keys.go`. -/
def ModuleName : String := "fees"

/-- The constant `sdk.AttributeKeySender`. -/
def AttributeKeySender : String := "sender"

/-- Modelled from the spec: the constant `types.EventTypeDistributeDevFee` is declared in a
file of the module that is not among the sources; the spec gives the kind of the emitted
event as "distribute developer fee". -/
def EventTypeDistributeDevFee : String := "distribute developer fee"

/-- Modelled from the spec: the constant `types.AttributeKeyContract` is declared in a file
of the module that is not among the sources; the spec calls the field the contract
identity. -/
def AttributeKeyContract : String := "contract"

/-- Modelled from the spec: the constant `types.AttributeKeyWithdrawAddress` is declared in
a file of the module that is not among the sources; the spec calls the field the beneficiary
identity. -/
def AttributeKeyWithdrawAddress : String := "beneficiary"

/-! ## The hook -/

/-- The function `sdk.MustAccAddressFromBech32`: panics when the address does not parse. -/
def MustAccAddressFromBech32 (k : Keeper) (address : String) : Except String AccAddress :=
  k.accAddressFromBech32 address

/-- The conversion `float32(v)` of a natural number: exact up to 24 bits, otherwise rounded
to the nearest value with a 24-bit significand, ties to even. -/
def float32OfNat (n : Nat) : Nat :=
  let len := bitLenAux n n
  if len ≤ 24 then n
  else
    let shift := len - 24
    let q := n / 2 ^ shift
    let r := n % 2 ^ shift
    let half := 2 ^ (shift - 1)
    let q1 := if r > half ∨ (r = half ∧ q % 2 = 1) then q + 1 else q
    q1 * 2 ^ shift

/-- The conversion `float32(v)` of an `int64`, as the integer the result denotes. -/
def float32OfInt64 (v : Int) : Int :=
  if v < 0 then -((float32OfNat v.natAbs : Nat) : Int) else ((float32OfNat v.natAbs : Nat) : Int)

/-- The method `String` of `sdk.Coins` on the literal the hook builds. -/
def coinsString (cs : Coins) : String :=
  ",".intercalate (cs.map (fun c => toString c.Amount.i ++ c.Denom))

/-- Lines 50 to 53: the withdraw address of the record, the deployer address when it is
empty. -/
def resolveWithdrawAddr (fee : Fee) : String :=
  if fee.WithdrawAddress = "" then fee.DeployerAddress else fee.WithdrawAddress

/-- Line 55 on its own: the transaction fee, `gasUsed` times `gasPrice` on `sdk.Int`. -/
def txFee (msg : Message) (receipt : Receipt) : Except String SdkInt := do
  let gasPrice ← NewIntFromBigInt msg.GasPrice
  (NewIntFromUint64 receipt.GasUsed).Mul gasPrice

/-- Lines 55 and 56: the transaction fee and the developer share of it. -/
def developerFee (params : Params) (msg : Message) (receipt : Receipt) : Except String SdkInt := do
  let gasPrice ← NewIntFromBigInt msg.GasPrice
  let txFee ← (NewIntFromUint64 receipt.GasUsed).Mul gasPrice
  let share ← txFee.ToDec.Mul params.DeveloperShares
  share.TruncateInt

/-- The description given to `sdkerrors.Wrapf` at lines 63 to 67. -/
def wrapDescription (fees : Coins) (withdrawAddr : String) (contract : Address) : String :=
  "fee collector account failed to distribute developer fees (" ++ coinsString fees ++
    ") to withdraw address " ++ withdrawAddr ++ ". contract " ++ contract.hex

/-- The deferred function of lines 70 to 82: one counter sample when the share fits an
`int64`. -/
def deferredTelemetry (ctx : Ctx) (share : SdkInt) (msg : Message) (withdrawAddr : String)
    (fee : Fee) : Ctx :=
  if share.IsInt64 then
    { ctx with telemetry := ctx.telemetry ++
        [{ keys := [ModuleName, "distribute", "total"]
           val := float32OfInt64 share.Int64
           labels := [("sender", msg.From.hex), ("withdrawer", withdrawAddr),
                      ("contract", fee.ContractAddress)] }] }
  else ctx

/-- The method `Keeper.PostTxProcessing`. -/
def PostTxProcessing (k : Keeper) (ctx : Ctx) (msg : Message) (receipt : Receipt) :
    Outcome × Ctx :=
  let params := ctx.params
  if !params.EnableFees then (.returned none, ctx)
  else
    match msg.To with
    | none => (.returned none, ctx)
    | some contract =>
      match ctx.fees contract with
      | none => (.returned none, ctx)
      | some fee =>
        let withdrawAddr := resolveWithdrawAddr fee
        match developerFee params msg receipt with
        | .error reason => (.panicked reason, ctx)
        | .ok share =>
          let evmDenom := ctx.evmDenom
          let fees : Coins := [{ Denom := evmDenom, Amount := share }]
          match MustAccAddressFromBech32 k withdrawAddr with
          | .error reason => (.panicked reason, ctx)
          | .ok recipient =>
            let call : Transfer :=
              { senderModule := k.feeCollectorName, recipient := recipient, amt := fees }
            let ctx1 := { ctx with bankCalls := ctx.bankCalls ++ [call] }
            match k.bankSend call with
            | some err =>
              (.returned (some { cause := err
                                 description := wrapDescription fees withdrawAddr contract }),
               ctx1)
            | none =>
              let ctx2 := { ctx1 with events := ctx1.events ++
                [{ Ty := EventTypeDistributeDevFee
                   Attributes := [(AttributeKeySender, msg.From.hex),
                                  (AttributeKeyContract, contract.hex),
                                  (AttributeKeyWithdrawAddress, withdrawAddr)] }] }
              (.returned none, deferredTelemetry ctx2 share msg withdrawAddr fee)

/-- The wrapper `Hooks` of the keeper. -/
structure Hooks where
  k : Keeper

/-- The method `Hooks.PostTxProcessing`: the keeper's. -/
def Hooks.PostTxProcessing (h : Hooks) (ctx : Ctx) (msg : Message) (receipt : Receipt) :
    Outcome × Ctx :=
  Fees.PostTxProcessing h.k ctx msg receipt

/-! ## Store keys -/

/-- The constant `prefixFee` of `x/fees/types/keys.go`: `iota + 1` on the first line of the
block. -/
def prefixFee : Nat := 0 + 1

/-- The constant `prefixDeployer`: `iota + 1` on the second line of the block. -/
def prefixDeployer : Nat := 1 + 1

/-- The constant `prefixWithdraw`: `iota + 1` on the third line of the block. -/
def prefixWithdraw : Nat := 2 + 1

/-- The variable `KeyPrefixFee`: one byte. -/
def KeyPrefixFee : List Nat := [prefixFee]

/-- The variable `KeyPrefixDeployer`: one byte. -/
def KeyPrefixDeployer : List Nat := [prefixDeployer]

/-- The variable `KeyPrefixWithdraw`: one byte. -/
def KeyPrefixWithdraw : List Nat := [prefixWithdraw]

/-- Modelled from the spec: the variable `KeyPrefixDeployerFees`, which
`GetKeyPrefixDeployerFees` appends to, is not declared in `keys.go` (the file declares
`KeyPrefixDeployer`); the spec gives the keys of the deployer namespace as the deployer
prefix followed by the raw bytes of the address. -/
def KeyPrefixDeployerFees : List Nat := KeyPrefixDeployer

/-- The function `GetKeyPrefixDeployerFees`: the prefix with the bytes of the address
appended. -/
def GetKeyPrefixDeployerFees (deployerAddress : AccAddress) : List Nat :=
  KeyPrefixDeployerFees ++ deployerAddress

/-! ## Example data -/

/-- A keeper whose bank accepts every transfer and whose address parser accepts the
strings "D" and "W". -/
def exKeeper : Keeper where
  feeCollectorName := "fee_collector"
  bankSend := fun _ => none
  accAddressFromBech32 := fun s =>
    if s = "D" then .ok [1] else if s = "W" then .ok [2] else .error "decoding bech32 failed"

/-- A keeper like `exKeeper` whose bank refuses every transfer. -/
def exKeeperBroke : Keeper :=
  { exKeeper with bankSend := fun _ => some "insufficient funds" }

/-- The contract address of the examples. -/
def exC : Address := ⟨"C"⟩

/-- The sender address of the examples. -/
def exS : Address := ⟨"S"⟩

/-- A context with fees enabled at the given rate and one record for `exC`, with deployer
"D" and the given withdraw address. -/
def exCtx (rate : Int) (withdraw : String) : Ctx where
  params := { EnableFees := true, DeveloperShares := ⟨rate⟩ }
  evmDenom := "aevmos"
  fees := fun a => if a = exC then some ⟨"C", "D", withdraw⟩ else none
  bankCalls := []
  events := []
  telemetry := []

/-- A message from `exS` to `exC` at the given gas price. -/
def exMsg (gasPrice : Int) : Message := { From := exS, To := some exC, GasPrice := gasPrice }

/-! ## Arithmetic of the share -/

theorem bitLenAux_le_iff (fuel : Nat) : ∀ (n k : Nat), n ≤ fuel → (bitLenAux fuel n ≤ k ↔ n < 2 ^ k) := by
  induction fuel with
  | zero =>
    intro n k hn
    have : n = 0 := by omega
    subst this
    simp [bitLenAux]
  | succ f ih =>
    intro n k hn
    unfold bitLenAux
    by_cases h0 : n = 0
    · subst h0; simp
    · rw [if_neg h0]
      cases k with
      | zero => simp; omega
      | succ k =>
        have hle : n / 2 ≤ f := by omega
        rw [Nat.add_le_add_iff_right, ih (n / 2) k hle, pow_succ]
        omega

theorem BitLen_le_iff (x : Int) (k : Nat) : BitLen x ≤ k ↔ x.natAbs < 2 ^ k :=
  bitLenAux_le_iff _ _ _ (le_refl _)

theorem chopPrecisionAndRoundNonneg_mul (a : Int) :
    chopPrecisionAndRoundNonneg (a * precisionReuse) = a := by
  have hp : precisionReuse ≠ 0 := by decide
  simp [chopPrecisionAndRoundNonneg, Int.mul_tdiv_cancel _ hp, Int.mul_tmod_left]

theorem chopPrecisionAndRound_mul (a : Int) :
    chopPrecisionAndRound (a * precisionReuse) = a := by
  unfold chopPrecisionAndRound
  split
  · rw [← Int.neg_mul, chopPrecisionAndRoundNonneg_mul]; simp
  · exact chopPrecisionAndRoundNonneg_mul a

theorem Except_bind_ok {ε α β : Type} {x : Except ε α} {f : α → Except ε β} {y : β}
    (h : x >>= f = .ok y) : ∃ a, x = .ok a ∧ f a = .ok y := by
  cases x with
  | error e => cases h
  | ok a => exact ⟨a, rfl, h⟩

theorem NewIntFromBigInt_val {i : Int} {v : SdkInt} (h : NewIntFromBigInt i = .ok v) :
    v.i = i := by
  unfold NewIntFromBigInt at h
  split_ifs at h
  simp only [Except.ok.injEq] at h
  rw [← h]

theorem SdkInt_Mul_val {a b v : SdkInt} (h : a.Mul b = .ok v) : v.i = a.i * b.i := by
  simp only [SdkInt.Mul] at h
  split_ifs at h
  simp only [Except.ok.injEq] at h
  rw [← h]

theorem Dec_Mul_val {a b v : Dec} (h : a.Mul b = .ok v) :
    v.i = chopPrecisionAndRound (a.i * b.i) := by
  simp only [Dec.Mul] at h
  split_ifs at h
  simp only [Except.ok.injEq] at h
  rw [← h]

theorem developerFee_val {params : Params} {msg : Message} {receipt : Receipt} {share : SdkInt}
    (h : developerFee params msg receipt = .ok share) :
    share.i = Int.tdiv ((receipt.GasUsed : Int) * msg.GasPrice * params.DeveloperShares.i)
      precisionReuse := by
  unfold developerFee at h
  obtain ⟨gp, h1, h⟩ := Except_bind_ok h
  obtain ⟨txFee, h2, h⟩ := Except_bind_ok h
  obtain ⟨d, h3, h⟩ := Except_bind_ok h
  have e1 := NewIntFromBigInt_val h1
  have e2 := SdkInt_Mul_val h2
  have e3 := Dec_Mul_val h3
  have e4 := NewIntFromBigInt_val h
  rw [e4, chopPrecisionAndTruncate, e3, SdkInt.ToDec, e2, e1, NewIntFromUint64, mul_right_comm,
    chopPrecisionAndRound_mul]

theorem BitLen_le_of_nonneg {x : Int} {k : Nat} (h0 : 0 ≤ x) (h : x < 2 ^ k) : BitLen x ≤ k := by
  rw [BitLen_le_iff]
  zify
  rw [abs_of_nonneg h0]
  exact h

theorem BitLen_mul_ge {a b : Int} (ha : a ≠ 0) (hb : b ≠ 0) :
    BitLen a + BitLen b ≤ BitLen (a * b) + 1 := by
  by_contra hlt
  push_neg at hlt
  have ha0 : ¬ BitLen a ≤ 0 := by
    rw [BitLen_le_iff]; simpa using ha
  have hb0 : ¬ BitLen b ≤ 0 := by
    rw [BitLen_le_iff]; simpa using hb
  have hA : ¬ BitLen a ≤ BitLen a - 1 := by omega
  have hB : ¬ BitLen b ≤ BitLen b - 1 := by omega
  rw [BitLen_le_iff] at hA hB
  push_neg at hA hB
  have hAB : BitLen (a * b) ≤ (BitLen a - 1) + (BitLen b - 1) := by omega
  rw [BitLen_le_iff, Int.natAbs_mul, pow_add] at hAB
  have := Nat.mul_le_mul hA hB
  omega

theorem precisionReuse_eq : precisionReuse = 10 ^ 18 := by
  norm_num [precisionReuse, Precision]

theorem developerFee_ok {params : Params} {msg : Message} {receipt : Receipt}
    (hgu : receipt.GasUsed < 2 ^ 64)
    (hgp : 0 ≤ msg.GasPrice) (hs0 : 0 ≤ params.DeveloperShares.i)
    (hs1 : params.DeveloperShares.i ≤ 10 ^ 18)
    (h1 : msg.GasPrice < 2 ^ maxBitLen)
    (h2 : (receipt.GasUsed : Int) * msg.GasPrice < 2 ^ maxBitLen)
    (h3 : (receipt.GasUsed : Int) * msg.GasPrice * params.DeveloperShares.i < 2 ^ maxDecBitLen) :
    developerFee params msg receipt =
      .ok ⟨(receipt.GasUsed : Int) * msg.GasPrice * params.DeveloperShares.i / 10 ^ 18⟩ := by
  have hfee0 : 0 ≤ (receipt.GasUsed : Int) * msg.GasPrice :=
    mul_nonneg (Int.ofNat_nonneg _) hgp
  have hprod0 : 0 ≤ (receipt.GasUsed : Int) * msg.GasPrice * params.DeveloperShares.i :=
    mul_nonneg hfee0 hs0
  have c1 : BitLen msg.GasPrice ≤ maxBitLen := BitLen_le_of_nonneg hgp h1
  have c2 : BitLen ((receipt.GasUsed : Int) * msg.GasPrice) ≤ maxBitLen :=
    BitLen_le_of_nonneg hfee0 h2
  have c3 : BitLen ((receipt.GasUsed : Int) * msg.GasPrice * params.DeveloperShares.i)
      ≤ maxDecBitLen := BitLen_le_of_nonneg hprod0 h3
  have hq : Int.tdiv ((receipt.GasUsed : Int) * msg.GasPrice * params.DeveloperShares.i)
      precisionReuse = (receipt.GasUsed : Int) * msg.GasPrice * params.DeveloperShares.i / 10 ^ 18 := by
    rw [precisionReuse_eq]
    exact Int.tdiv_eq_ediv hprod0 (by norm_num)
  have hqle : (receipt.GasUsed : Int) * msg.GasPrice * params.DeveloperShares.i / 10 ^ 18
      ≤ (receipt.GasUsed : Int) * msg.GasPrice := by
    apply Int.ediv_le_of_le_mul (by norm_num)
    exact Int.mul_le_mul_of_nonneg_left hs1 hfee0
  have hq0 : 0 ≤ (receipt.GasUsed : Int) * msg.GasPrice * params.DeveloperShares.i / 10 ^ 18 :=
    Int.ediv_nonneg hprod0 (by norm_num)
  have c4 : BitLen ((receipt.GasUsed : Int) * msg.GasPrice * params.DeveloperShares.i / 10 ^ 18)
      ≤ maxBitLen := BitLen_le_of_nonneg hq0 (lt_of_le_of_lt hqle h2)
  have hm : maxBitLen = 256 := rfl
  have c0 : ¬ ((BitLen (receipt.GasUsed : Int) : Int) + (BitLen msg.GasPrice : Int) - 1
      > (maxBitLen : Int)) := by
    have hu : BitLen (receipt.GasUsed : Int) ≤ 64 :=
      BitLen_le_of_nonneg (Int.ofNat_nonneg _) (by exact_mod_cast hgu)
    by_cases ha : (receipt.GasUsed : Int) = 0
    · have ha0 : BitLen (receipt.GasUsed : Int) ≤ 0 :=
        BitLen_le_of_nonneg (Int.ofNat_nonneg _) (by rw [ha]; norm_num)
      omega
    by_cases hb : msg.GasPrice = 0
    · have hb0 : BitLen msg.GasPrice ≤ 0 := BitLen_le_of_nonneg hgp (by rw [hb]; norm_num)
      omega
    have := BitLen_mul_ge ha hb
    omega
  have hc : chopPrecisionAndRound ((receipt.GasUsed : Int) * msg.GasPrice * precisionReuse *
      params.DeveloperShares.i) = (receipt.GasUsed : Int) * msg.GasPrice * params.DeveloperShares.i := by
    rw [mul_right_comm]; exact chopPrecisionAndRound_mul _
  simp only [developerFee, NewIntFromBigInt, if_neg (not_lt.mpr c1), SdkInt.Mul, NewIntFromUint64,
    if_neg c0, if_neg (not_lt.mpr c2), SdkInt.ToDec, Dec.Mul, hc, if_neg (not_lt.mpr c3),
    Dec.TruncateInt, chopPrecisionAndTruncate, hq, if_neg (not_lt.mpr c4), bind, Except.bind]

/-! ## The paths through the hook -/

theorem deferredTelemetry_bankCalls (ctx : Ctx) (share : SdkInt) (msg : Message) (w : String)
    (fee : Fee) : (deferredTelemetry ctx share msg w fee).bankCalls = ctx.bankCalls := by
  unfold deferredTelemetry
  split <;> rfl

theorem deferredTelemetry_events (ctx : Ctx) (share : SdkInt) (msg : Message) (w : String)
    (fee : Fee) : (deferredTelemetry ctx share msg w fee).events = ctx.events := by
  unfold deferredTelemetry
  split <;> rfl

theorem deferredTelemetry_samples (ctx : Ctx) (share : SdkInt) (msg : Message) (w : String)
    (fee : Fee) :
    ∃ samples : List MetricSample,
      (deferredTelemetry ctx share msg w fee).telemetry = ctx.telemetry ++ samples ∧
      samples.length ≤ 1 := by
  unfold deferredTelemetry
  split
  · exact ⟨_, rfl, by simp⟩
  · exact ⟨[], by simp, by simp⟩

theorem PostTxProcessing_early (k : Keeper) (ctx : Ctx) (msg : Message) (receipt : Receipt)
    (h : ctx.params.EnableFees = false ∨ msg.To = none ∨
      ∃ contract, msg.To = some contract ∧ ctx.fees contract = none) :
    PostTxProcessing k ctx msg receipt = (.returned none, ctx) := by
  unfold PostTxProcessing
  rcases h with h | h | ⟨contract, h1, h2⟩
  · simp [h]
  · simp [h]
  · cases hen : ctx.params.EnableFees <;> simp [h1, h2]

theorem PostTxProcessing_panic_share (k : Keeper) (ctx : Ctx) (msg : Message) (receipt : Receipt)
    {contract : Address} {fee : Fee} {reason : String}
    (hen : ctx.params.EnableFees = true) (hto : msg.To = some contract)
    (hfee : ctx.fees contract = some fee)
    (hdf : developerFee ctx.params msg receipt = .error reason) :
    PostTxProcessing k ctx msg receipt = (.panicked reason, ctx) := by
  simp [PostTxProcessing, hen, hto, hfee, hdf]

theorem PostTxProcessing_panic_address (k : Keeper) (ctx : Ctx) (msg : Message)
    (receipt : Receipt) {contract : Address} {fee : Fee} {share : SdkInt} {reason : String}
    (hen : ctx.params.EnableFees = true) (hto : msg.To = some contract)
    (hfee : ctx.fees contract = some fee)
    (hdf : developerFee ctx.params msg receipt = .ok share)
    (hacc : k.accAddressFromBech32 (resolveWithdrawAddr fee) = .error reason) :
    PostTxProcessing k ctx msg receipt = (.panicked reason, ctx) := by
  simp [PostTxProcessing, hen, hto, hfee, hdf, MustAccAddressFromBech32, hacc]

theorem PostTxProcessing_bank_error (k : Keeper) (ctx : Ctx) (msg : Message)
    (receipt : Receipt) {contract : Address} {fee : Fee} {share : SdkInt}
    {recipient : AccAddress} {err : String}
    (hen : ctx.params.EnableFees = true) (hto : msg.To = some contract)
    (hfee : ctx.fees contract = some fee)
    (hdf : developerFee ctx.params msg receipt = .ok share)
    (hacc : k.accAddressFromBech32 (resolveWithdrawAddr fee) = .ok recipient)
    (hbank : k.bankSend ⟨k.feeCollectorName, recipient, [⟨ctx.evmDenom, share⟩]⟩ = some err) :
    PostTxProcessing k ctx msg receipt =
      (.returned (some ⟨err, wrapDescription [⟨ctx.evmDenom, share⟩] (resolveWithdrawAddr fee)
          contract⟩),
       { ctx with bankCalls := ctx.bankCalls ++
          [⟨k.feeCollectorName, recipient, [⟨ctx.evmDenom, share⟩]⟩] }) := by
  simp [PostTxProcessing, hen, hto, hfee, hdf, MustAccAddressFromBech32, hacc, hbank]

theorem PostTxProcessing_sent (k : Keeper) (ctx : Ctx) (msg : Message)
    (receipt : Receipt) {contract : Address} {fee : Fee} {share : SdkInt}
    {recipient : AccAddress}
    (hen : ctx.params.EnableFees = true) (hto : msg.To = some contract)
    (hfee : ctx.fees contract = some fee)
    (hdf : developerFee ctx.params msg receipt = .ok share)
    (hacc : k.accAddressFromBech32 (resolveWithdrawAddr fee) = .ok recipient)
    (hbank : k.bankSend ⟨k.feeCollectorName, recipient, [⟨ctx.evmDenom, share⟩]⟩ = none) :
    PostTxProcessing k ctx msg receipt =
      (.returned none,
       deferredTelemetry
        { ctx with
          bankCalls := ctx.bankCalls ++ [⟨k.feeCollectorName, recipient, [⟨ctx.evmDenom, share⟩]⟩]
          events := ctx.events ++
            [⟨EventTypeDistributeDevFee,
              [(AttributeKeySender, msg.From.hex), (AttributeKeyContract, contract.hex),
               (AttributeKeyWithdrawAddress, resolveWithdrawAddr fee)]⟩] }
        share msg (resolveWithdrawAddr fee) fee) := by
  simp [PostTxProcessing, hen, hto, hfee, hdf, MustAccAddressFromBech32, hacc, hbank]


theorem early_or_reached (ctx : Ctx) (msg : Message) :
    (ctx.params.EnableFees = false ∨ msg.To = none ∨
      ∃ contract, msg.To = some contract ∧ ctx.fees contract = none) ∨
    (∃ contract fee, ctx.params.EnableFees = true ∧ msg.To = some contract ∧
      ctx.fees contract = some fee) := by
  cases hen : ctx.params.EnableFees with
  | false => exact Or.inl (Or.inl rfl)
  | true =>
    cases hto : msg.To with
    | none => exact Or.inl (Or.inr (Or.inl rfl))
    | some contract =>
      cases hfee : ctx.fees contract with
      | none => exact Or.inl (Or.inr (Or.inr ⟨contract, rfl, hfee⟩))
      | some fee => exact Or.inr ⟨contract, fee, rfl, rfl, hfee⟩

theorem PostTxProcessing_reached (k : Keeper) (ctx : Ctx) (msg : Message) (receipt : Receipt)
    {contract : Address} {fee : Fee}
    (hen : ctx.params.EnableFees = true) (hto : msg.To = some contract)
    (hfee : ctx.fees contract = some fee) :
    (∃ reason, PostTxProcessing k ctx msg receipt = (.panicked reason, ctx) ∧
      (developerFee ctx.params msg receipt = .error reason ∨
        k.accAddressFromBech32 (resolveWithdrawAddr fee) = .error reason)) ∨
    (∃ share recipient,
      developerFee ctx.params msg receipt = .ok share ∧
      k.accAddressFromBech32 (resolveWithdrawAddr fee) = .ok recipient ∧
      ((∃ err, k.bankSend ⟨k.feeCollectorName, recipient, [⟨ctx.evmDenom, share⟩]⟩ = some err ∧
        PostTxProcessing k ctx msg receipt =
          (.returned (some ⟨err, wrapDescription [⟨ctx.evmDenom, share⟩]
              (resolveWithdrawAddr fee) contract⟩),
           { ctx with bankCalls := ctx.bankCalls ++
              [⟨k.feeCollectorName, recipient, [⟨ctx.evmDenom, share⟩]⟩] })) ∨
       (k.bankSend ⟨k.feeCollectorName, recipient, [⟨ctx.evmDenom, share⟩]⟩ = none ∧
        PostTxProcessing k ctx msg receipt =
          (.returned none,
           deferredTelemetry
            { ctx with
              bankCalls := ctx.bankCalls ++
                [⟨k.feeCollectorName, recipient, [⟨ctx.evmDenom, share⟩]⟩]
              events := ctx.events ++
                [⟨EventTypeDistributeDevFee,
                  [(AttributeKeySender, msg.From.hex), (AttributeKeyContract, contract.hex),
                   (AttributeKeyWithdrawAddress, resolveWithdrawAddr fee)]⟩] }
            share msg (resolveWithdrawAddr fee) fee)))) := by
  cases hdf : developerFee ctx.params msg receipt with
  | error reason =>
    exact Or.inl ⟨reason, PostTxProcessing_panic_share k ctx msg receipt hen hto hfee hdf,
      Or.inl rfl⟩
  | ok share =>
    cases hacc : k.accAddressFromBech32 (resolveWithdrawAddr fee) with
    | error reason =>
      exact Or.inl ⟨reason,
        PostTxProcessing_panic_address k ctx msg receipt hen hto hfee hdf hacc, Or.inr rfl⟩
    | ok recipient =>
      refine Or.inr ⟨share, recipient, rfl, rfl, ?_⟩
      cases hbank : k.bankSend ⟨k.feeCollectorName, recipient, [⟨ctx.evmDenom, share⟩]⟩ with
      | some err =>
        exact Or.inl ⟨err, rfl,
          PostTxProcessing_bank_error k ctx msg receipt hen hto hfee hdf hacc hbank⟩
      | none =>
        exact Or.inr ⟨rfl, PostTxProcessing_sent k ctx msg receipt hen hto hfee hdf hacc hbank⟩

/-- What every invocation hands to the bank keeper: nothing, or one transfer of the share to
the parsed withdraw address. -/
theorem PostTxProcessing_calls (k : Keeper) (ctx : Ctx) (msg : Message) (receipt : Receipt) :
    (PostTxProcessing k ctx msg receipt).2.bankCalls = ctx.bankCalls ∨
    (∃ contract fee share recipient,
      ctx.params.EnableFees = true ∧ msg.To = some contract ∧ ctx.fees contract = some fee ∧
      developerFee ctx.params msg receipt = .ok share ∧
      k.accAddressFromBech32 (resolveWithdrawAddr fee) = .ok recipient ∧
      (PostTxProcessing k ctx msg receipt).2.bankCalls = ctx.bankCalls ++
        [⟨k.feeCollectorName, recipient, [⟨ctx.evmDenom, share⟩]⟩]) := by
  rcases early_or_reached ctx msg with h | ⟨contract, fee, hen, hto, hfee⟩
  · left; rw [PostTxProcessing_early k ctx msg receipt h]
  · rcases PostTxProcessing_reached k ctx msg receipt hen hto hfee with ⟨reason, h, _⟩ |
      ⟨share, recipient, hdf, hacc, h⟩
    · left; rw [h]
    · right
      refine ⟨contract, fee, share, recipient, hen, hto, hfee, hdf, hacc, ?_⟩
      rcases h with ⟨err, _, h⟩ | ⟨_, h⟩
      · rw [h]
      · rw [h, deferredTelemetry_bankCalls]

theorem share_floor {params : Params} {msg : Message} {receipt : Receipt} {share : SdkInt}
    (hgp : 0 ≤ msg.GasPrice) (hs0 : 0 ≤ params.DeveloperShares.i)
    (h : developerFee params msg receipt = .ok share) :
    share.i = ⌊((receipt.GasUsed : ℚ) * (msg.GasPrice : ℚ)) *
      ((params.DeveloperShares.i : ℚ) / 10 ^ 18)⌋ := by
  rw [developerFee_val h, precisionReuse_eq,
    Int.tdiv_eq_ediv (mul_nonneg (mul_nonneg (Int.ofNat_nonneg _) hgp) hs0) (by norm_num)]
  have := Rat.floor_intCast_div_natCast
    ((receipt.GasUsed : Int) * msg.GasPrice * params.DeveloperShares.i) (10 ^ 18)
  rw [← mul_div_assoc]
  push_cast at this
  norm_num at this ⊢
  exact this.symm

theorem share_le {params : Params} {msg : Message} {receipt : Receipt} {share : SdkInt}
    (hgp : 0 ≤ msg.GasPrice) (hs0 : 0 ≤ params.DeveloperShares.i)
    (hs1 : params.DeveloperShares.i ≤ 10 ^ 18)
    (h : developerFee params msg receipt = .ok share) :
    0 ≤ share.i ∧ share.i ≤ (receipt.GasUsed : Int) * msg.GasPrice := by
  have hfee0 : 0 ≤ (receipt.GasUsed : Int) * msg.GasPrice :=
    mul_nonneg (Int.ofNat_nonneg _) hgp
  rw [developerFee_val h, precisionReuse_eq, Int.tdiv_eq_ediv (mul_nonneg hfee0 hs0) (by norm_num)]
  constructor
  · exact Int.ediv_nonneg (mul_nonneg hfee0 hs0) (by norm_num)
  · apply Int.ediv_le_of_le_mul (by norm_num)
    exact Int.mul_le_mul_of_nonneg_left hs1 hfee0


/-! ## Claims -/

/-- C1: with fees enabled, a present target and a registered record, the hook hands the bank
keeper at most one transfer, exactly one when it returns, and the recipient of that transfer
is the parsed `DeployerAddress` of the record when `WithdrawAddress` is the empty string and
the parsed `WithdrawAddress` when it is not. -/
theorem beneficiary_resolution (k : Keeper) (ctx : Ctx) (msg : Message) (receipt : Receipt)
    (contract : Address) (fee : Fee)
    (hen : ctx.params.EnableFees = true) (hto : msg.To = some contract)
    (hfee : ctx.fees contract = some fee) :
    ∃ issued : List Transfer,
      (PostTxProcessing k ctx msg receipt).2.bankCalls = ctx.bankCalls ++ issued ∧
      issued.length ≤ 1 ∧
      ((∃ err, (PostTxProcessing k ctx msg receipt).1 = .returned err) → issued.length = 1) ∧
      ∀ t ∈ issued,
        (fee.WithdrawAddress = "" →
          k.accAddressFromBech32 fee.DeployerAddress = .ok t.recipient) ∧
        (fee.WithdrawAddress ≠ "" →
          k.accAddressFromBech32 fee.WithdrawAddress = .ok t.recipient) := by
  rcases PostTxProcessing_reached k ctx msg receipt hen hto hfee with ⟨reason, h, _⟩ |
    ⟨share, recipient, hdf, hacc, h⟩
  · exact ⟨[], by rw [h]; simp, by simp, by rw [h]; simp, by simp⟩
  · refine ⟨[⟨k.feeCollectorName, recipient, [⟨ctx.evmDenom, share⟩]⟩], ?_, by simp, by simp, ?_⟩
    · rcases h with ⟨err, _, h⟩ | ⟨_, h⟩
      · rw [h]
      · rw [h, deferredTelemetry_bankCalls]
    · intro t ht
      simp only [List.mem_singleton] at ht
      subst ht
      unfold resolveWithdrawAddr at hacc
      constructor
      · intro hw; rw [if_pos hw] at hacc; exact hacc
      · intro hw; rw [if_neg hw] at hacc; exact hacc

/-- Witness of C1 on a record with a withdraw address: the one transfer goes to the parsed
"W", not to the deployer "D". -/
theorem beneficiary_resolution_witness :
    (PostTxProcessing exKeeper (exCtx (5 * 10 ^ 17) "W") (exMsg 10) ⟨50⟩).2.bankCalls =
      [⟨"fee_collector", [2], [⟨"aevmos", ⟨250⟩⟩]⟩] ∧
    ∃ issued : List Transfer,
      (PostTxProcessing exKeeper (exCtx (5 * 10 ^ 17) "W") (exMsg 10) ⟨50⟩).2.bankCalls =
        (exCtx (5 * 10 ^ 17) "W").bankCalls ++ issued ∧
      issued.length ≤ 1 ∧
      ((∃ err, (PostTxProcessing exKeeper (exCtx (5 * 10 ^ 17) "W") (exMsg 10) ⟨50⟩).1 =
        .returned err) → issued.length = 1) ∧
      ∀ t ∈ issued,
        (("W" : String) = "" → exKeeper.accAddressFromBech32 "D" = .ok t.recipient) ∧
        (("W" : String) ≠ "" → exKeeper.accAddressFromBech32 "W" = .ok t.recipient) :=
  ⟨by decide,
   beneficiary_resolution exKeeper (exCtx (5 * 10 ^ 17) "W") (exMsg 10) ⟨50⟩ exC ⟨"C", "D", "W"⟩
    rfl rfl rfl⟩


/-- C2: with fees enabled, a present target and a registered record, a non-negative gas
price and a non-negative share rate `s / 10^18`, the hook hands the bank keeper at most one
transfer, exactly one when it returns, and that transfer carries one coin of the EVM
denomination whose amount is exactly the floor of `gasUsed * gasPrice * (s / 10^18)`; and
the fixed-point `Mul` of an integer fee by the rate, when it returns, returns the exact
product: its rounding step never changes it. -/
theorem share_is_truncated_product (k : Keeper) (ctx : Ctx) (msg : Message) (receipt : Receipt)
    (contract : Address) (fee : Fee)
    (hen : ctx.params.EnableFees = true) (hto : msg.To = some contract)
    (hfee : ctx.fees contract = some fee)
    (hgp : 0 ≤ msg.GasPrice) (hs0 : 0 ≤ ctx.params.DeveloperShares.i) :
    ∃ issued : List Transfer,
      (PostTxProcessing k ctx msg receipt).2.bankCalls = ctx.bankCalls ++ issued ∧
      issued.length ≤ 1 ∧
      ((∃ err, (PostTxProcessing k ctx msg receipt).1 = .returned err) → issued.length = 1) ∧
      (∀ t ∈ issued,
        t.amt = [⟨ctx.evmDenom,
          ⟨⌊((receipt.GasUsed : ℚ) * (msg.GasPrice : ℚ)) *
            ((ctx.params.DeveloperShares.i : ℚ) / 10 ^ 18)⌋⟩⟩]) ∧
      ∀ (txFee : SdkInt) (d : Dec), txFee.ToDec.Mul ctx.params.DeveloperShares = .ok d →
        (d.i : ℚ) / 10 ^ 18 = (txFee.i : ℚ) * ((ctx.params.DeveloperShares.i : ℚ) / 10 ^ 18) := by
  have hexact : ∀ (txFee : SdkInt) (d : Dec),
      txFee.ToDec.Mul ctx.params.DeveloperShares = .ok d →
      (d.i : ℚ) / 10 ^ 18 =
        (txFee.i : ℚ) * ((ctx.params.DeveloperShares.i : ℚ) / 10 ^ 18) := by
    intro txFee d hd
    have hv := Dec_Mul_val hd
    rw [SdkInt.ToDec, mul_right_comm, chopPrecisionAndRound_mul] at hv
    rw [hv, ← mul_div_assoc]
    push_cast
    rfl
  rcases PostTxProcessing_reached k ctx msg receipt hen hto hfee with ⟨reason, h, _⟩ |
    ⟨share, recipient, hdf, hacc, h⟩
  · exact ⟨[], by rw [h]; simp, by simp, by rw [h]; simp, by simp, hexact⟩
  · refine ⟨[⟨k.feeCollectorName, recipient, [⟨ctx.evmDenom, share⟩]⟩], ?_, by simp, by simp,
      ?_, hexact⟩
    · rcases h with ⟨err, _, h⟩ | ⟨_, h⟩
      · rw [h]
      · rw [h, deferredTelemetry_bankCalls]
    · intro t ht
      simp only [List.mem_singleton] at ht
      subst ht
      have hv := share_floor hgp hs0 hdf
      cases share with
      | mk i =>
        simp only at hv
        rw [hv]

/-- Witness of C2: gas used 100 at gas price 1000 and rate 0.2 gives 20000; a raw fee of 100
at rate 0.333333333333333333 gives 33; gas used 50 at gas price 10 and rate 0.5 gives 250. -/
theorem share_is_truncated_product_witness :
    (PostTxProcessing exKeeper (exCtx (2 * 10 ^ 17) "") (exMsg 1000) ⟨100⟩).2.bankCalls =
      [⟨"fee_collector", [1], [⟨"aevmos", ⟨20000⟩⟩]⟩] ∧
    (PostTxProcessing exKeeper (exCtx 333333333333333333 "") (exMsg 1) ⟨100⟩).2.bankCalls =
      [⟨"fee_collector", [1], [⟨"aevmos", ⟨33⟩⟩]⟩] ∧
    (PostTxProcessing exKeeper (exCtx (5 * 10 ^ 17) "") (exMsg 10) ⟨50⟩).2.bankCalls =
      [⟨"fee_collector", [1], [⟨"aevmos", ⟨250⟩⟩]⟩] ∧
    ∃ issued : List Transfer,
      (PostTxProcessing exKeeper (exCtx 333333333333333333 "") (exMsg 1) ⟨100⟩).2.bankCalls =
        (exCtx 333333333333333333 "").bankCalls ++ issued ∧
      issued.length ≤ 1 ∧
      ((∃ err, (PostTxProcessing exKeeper (exCtx 333333333333333333 "") (exMsg 1) ⟨100⟩).1 =
        .returned err) → issued.length = 1) ∧
      (∀ t ∈ issued,
        t.amt = [⟨"aevmos",
          ⟨⌊(((100 : Nat) : ℚ) * ((1 : Int) : ℚ)) *
            (((333333333333333333 : Int) : ℚ) / 10 ^ 18)⌋⟩⟩]) ∧
      ∀ (txFee : SdkInt) (d : Dec), txFee.ToDec.Mul ⟨333333333333333333⟩ = .ok d →
        (d.i : ℚ) / 10 ^ 18 = (txFee.i : ℚ) * (((333333333333333333 : Int) : ℚ) / 10 ^ 18) :=
  ⟨by decide, by decide, by decide,
   share_is_truncated_product exKeeper (exCtx 333333333333333333 "") (exMsg 1) ⟨100⟩ exC
    ⟨"C", "D", ""⟩ rfl rfl rfl (by decide) (by decide)⟩

/-- C3: when the parameters have `EnableFees = false`, the hook returns `nil` and appends
nothing to the bank calls, the events and the telemetry, whatever the message, the receipt
and the registry. -/
theorem disabled_toggle (k : Keeper) (ctx : Ctx) (msg : Message) (receipt : Receipt)
    (hdis : ctx.params.EnableFees = false) :
    (PostTxProcessing k ctx msg receipt).1 = .returned none ∧
    (PostTxProcessing k ctx msg receipt).2.bankCalls = ctx.bankCalls ∧
    (PostTxProcessing k ctx msg receipt).2.events = ctx.events ∧
    (PostTxProcessing k ctx msg receipt).2.telemetry = ctx.telemetry := by
  rw [PostTxProcessing_early k ctx msg receipt (Or.inl hdis)]
  exact ⟨rfl, rfl, rfl, rfl⟩

/-- Witness of C3: the context of the examples with the switch turned off. -/
theorem disabled_toggle_witness :
    ({ exCtx (5 * 10 ^ 17) "" with
        params := { EnableFees := false, DeveloperShares := ⟨5 * 10 ^ 17⟩ } } : Ctx).params.EnableFees
      = false ∧
    (PostTxProcessing exKeeper
      { exCtx (5 * 10 ^ 17) "" with
        params := { EnableFees := false, DeveloperShares := ⟨5 * 10 ^ 17⟩ } }
      (exMsg 10) ⟨50⟩).1 = .returned none :=
  ⟨rfl, (disabled_toggle exKeeper _ (exMsg 10) ⟨50⟩ rfl).1⟩

/-- C4: when the message has no target (`msg.To()` is `nil`), the hook returns `nil` and
appends nothing to the bank calls, the events and the telemetry, whatever the parameters,
the registry and the receipt. -/
theorem no_target (k : Keeper) (ctx : Ctx) (msg : Message) (receipt : Receipt)
    (hto : msg.To = none) :
    (PostTxProcessing k ctx msg receipt).1 = .returned none ∧
    (PostTxProcessing k ctx msg receipt).2.bankCalls = ctx.bankCalls ∧
    (PostTxProcessing k ctx msg receipt).2.events = ctx.events ∧
    (PostTxProcessing k ctx msg receipt).2.telemetry = ctx.telemetry := by
  rw [PostTxProcessing_early k ctx msg receipt (Or.inr (Or.inl hto))]
  exact ⟨rfl, rfl, rfl, rfl⟩

/-- Witness of C4: a contract creation, with fees enabled. -/
theorem no_target_witness :
    ({ From := exS, To := none, GasPrice := 10 } : Message).To = none ∧
    (PostTxProcessing exKeeper (exCtx (5 * 10 ^ 17) "")
      { From := exS, To := none, GasPrice := 10 } ⟨50⟩).1 = .returned none ∧
    (PostTxProcessing exKeeper (exCtx (5 * 10 ^ 17) "")
      { From := exS, To := none, GasPrice := 10 } ⟨50⟩).2.bankCalls = [] :=
  ⟨rfl, (no_target exKeeper (exCtx (5 * 10 ^ 17) "") _ ⟨50⟩ rfl).1,
    (no_target exKeeper (exCtx (5 * 10 ^ 17) "") _ ⟨50⟩ rfl).2.1⟩

/-- C5: when the registry has no record for the target of the message, the hook returns
`nil` and appends nothing to the bank calls, the events and the telemetry, whatever the gas
used, the gas price and the share rate. -/
theorem unregistered_contract (k : Keeper) (ctx : Ctx) (msg : Message) (receipt : Receipt)
    (contract : Address) (hto : msg.To = some contract) (hfee : ctx.fees contract = none) :
    (PostTxProcessing k ctx msg receipt).1 = .returned none ∧
    (PostTxProcessing k ctx msg receipt).2.bankCalls = ctx.bankCalls ∧
    (PostTxProcessing k ctx msg receipt).2.events = ctx.events ∧
    (PostTxProcessing k ctx msg receipt).2.telemetry = ctx.telemetry := by
  rw [PostTxProcessing_early k ctx msg receipt (Or.inr (Or.inr ⟨contract, hto, hfee⟩))]
  exact ⟨rfl, rfl, rfl, rfl⟩

/-- Witness of C5: a call to an address other than the registered one, with fees enabled. -/
theorem unregistered_contract_witness :
    ({ From := exS, To := some ⟨"E"⟩, GasPrice := 10 } : Message).To = some ⟨"E"⟩ ∧
    (exCtx (5 * 10 ^ 17) "").fees ⟨"E"⟩ = none ∧
    (PostTxProcessing exKeeper (exCtx (5 * 10 ^ 17) "")
      { From := exS, To := some ⟨"E"⟩, GasPrice := 10 } ⟨50⟩).1 = .returned none ∧
    (PostTxProcessing exKeeper (exCtx (5 * 10 ^ 17) "")
      { From := exS, To := some ⟨"E"⟩, GasPrice := 10 } ⟨50⟩).2.bankCalls = [] :=
  ⟨rfl, by decide,
    (unregistered_contract exKeeper (exCtx (5 * 10 ^ 17) "") _ ⟨50⟩ ⟨"E"⟩ rfl (by decide)).1,
    (unregistered_contract exKeeper (exCtx (5 * 10 ^ 17) "") _ ⟨50⟩ ⟨"E"⟩ rfl (by decide)).2.1⟩


/-- C6: when the hook has handed a transfer `t` to the bank keeper and the bank keeper
answers it with an error, the hook returns a non-nil error, which wraps that error, and
appends nothing to the events and to the telemetry. -/
theorem transfer_failure_propagates (k : Keeper) (ctx : Ctx) (msg : Message)
    (receipt : Receipt) (t : Transfer) (err : String)
    (hcall : (PostTxProcessing k ctx msg receipt).2.bankCalls = ctx.bankCalls ++ [t])
    (hbank : k.bankSend t = some err) :
    (∃ e, (PostTxProcessing k ctx msg receipt).1 = .returned (some e) ∧ e.cause = err) ∧
    (PostTxProcessing k ctx msg receipt).2.events = ctx.events ∧
    (PostTxProcessing k ctx msg receipt).2.telemetry = ctx.telemetry := by
  rcases early_or_reached ctx msg with h | ⟨contract, fee, hen, hto, hfee⟩
  · rw [PostTxProcessing_early k ctx msg receipt h] at hcall
    simp at hcall
  · rcases PostTxProcessing_reached k ctx msg receipt hen hto hfee with ⟨reason, h, _⟩ |
      ⟨share, recipient, hdf, hacc, h⟩
    · rw [h] at hcall
      simp at hcall
    · rcases h with ⟨err1, hb, h⟩ | ⟨hb, h⟩
      · rw [h] at hcall ⊢
        have ht := List.append_cancel_left hcall
        simp only [List.cons.injEq, and_true] at ht
        rw [ht, hbank] at hb
        cases hb
        exact ⟨⟨_, rfl, rfl⟩, rfl, rfl⟩
      · rw [h, deferredTelemetry_bankCalls] at hcall
        have ht := List.append_cancel_left hcall
        simp only [List.cons.injEq, and_true] at ht
        rw [ht, hbank] at hb
        cases hb

/-- Witness of C6: the bank keeper refuses the transfer of 250 for want of funds. -/
theorem transfer_failure_propagates_witness :
    (PostTxProcessing exKeeperBroke (exCtx (5 * 10 ^ 17) "") (exMsg 10) ⟨50⟩).2.bankCalls =
      (exCtx (5 * 10 ^ 17) "").bankCalls ++ [⟨"fee_collector", [1], [⟨"aevmos", ⟨250⟩⟩]⟩] ∧
    exKeeperBroke.bankSend ⟨"fee_collector", [1], [⟨"aevmos", ⟨250⟩⟩]⟩ =
      some "insufficient funds" ∧
    (∃ e, (PostTxProcessing exKeeperBroke (exCtx (5 * 10 ^ 17) "") (exMsg 10) ⟨50⟩).1 =
      .returned (some e) ∧ e.cause = "insufficient funds") ∧
    (PostTxProcessing exKeeperBroke (exCtx (5 * 10 ^ 17) "") (exMsg 10) ⟨50⟩).2.events =
      (exCtx (5 * 10 ^ 17) "").events ∧
    (PostTxProcessing exKeeperBroke (exCtx (5 * 10 ^ 17) "") (exMsg 10) ⟨50⟩).2.telemetry =
      (exCtx (5 * 10 ^ 17) "").telemetry :=
  ⟨by decide, rfl,
   transfer_failure_propagates exKeeperBroke (exCtx (5 * 10 ^ 17) "") (exMsg 10) ⟨50⟩
    ⟨"fee_collector", [1], [⟨"aevmos", ⟨250⟩⟩]⟩ "insufficient funds" (by decide) rfl⟩

/-- C7: when the target of the message is registered and the hook has handed a transfer `t`
to the bank keeper, which accepts it, the hook returns `nil`, appends exactly one event, of
type `EventTypeDistributeDevFee`, whose attributes are the sender, the contract and the
resolved beneficiary, and appends at most one sample to the telemetry. -/
theorem success_path (k : Keeper) (ctx : Ctx) (msg : Message) (receipt : Receipt)
    (contract : Address) (fee : Fee) (t : Transfer)
    (hto : msg.To = some contract) (hfee : ctx.fees contract = some fee)
    (hcall : (PostTxProcessing k ctx msg receipt).2.bankCalls = ctx.bankCalls ++ [t])
    (hbank : k.bankSend t = none) :
    (PostTxProcessing k ctx msg receipt).1 = .returned none ∧
    (PostTxProcessing k ctx msg receipt).2.events = ctx.events ++
      [⟨EventTypeDistributeDevFee,
        [(AttributeKeySender, msg.From.hex), (AttributeKeyContract, contract.hex),
         (AttributeKeyWithdrawAddress,
          if fee.WithdrawAddress = "" then fee.DeployerAddress else fee.WithdrawAddress)]⟩] ∧
    ∃ samples : List MetricSample,
      (PostTxProcessing k ctx msg receipt).2.telemetry = ctx.telemetry ++ samples ∧
      samples.length ≤ 1 := by
  cases hen : ctx.params.EnableFees with
  | false =>
    rw [PostTxProcessing_early k ctx msg receipt (Or.inl hen)] at hcall
    simp at hcall
  | true =>
    rcases PostTxProcessing_reached k ctx msg receipt hen hto hfee with ⟨reason, h, _⟩ |
      ⟨share, recipient, hdf, hacc, h⟩
    · rw [h] at hcall
      simp at hcall
    · rcases h with ⟨err1, hb, h⟩ | ⟨hb, h⟩
      · rw [h] at hcall
        have ht := List.append_cancel_left hcall
        simp only [List.cons.injEq, and_true] at ht
        rw [ht, hbank] at hb
        cases hb
      · rw [h]
        refine ⟨rfl, ?_, ?_⟩
        · rw [deferredTelemetry_events]
          rfl
        · exact deferredTelemetry_samples _ _ _ _ _

/-- Witness of C7: the registry holds contract C with deployer D and no withdraw address,
the rate is 0.5, the gas price 10 and the gas used 50: one transfer of 250 to the parsed D,
one event with sender S, contract C and beneficiary D, one sample of 250. -/
theorem success_path_witness :
    (PostTxProcessing exKeeper (exCtx (5 * 10 ^ 17) "") (exMsg 10) ⟨50⟩).2.bankCalls =
      (exCtx (5 * 10 ^ 17) "").bankCalls ++ [⟨"fee_collector", [1], [⟨"aevmos", ⟨250⟩⟩]⟩] ∧
    (PostTxProcessing exKeeper (exCtx (5 * 10 ^ 17) "") (exMsg 10) ⟨50⟩).2.telemetry =
      [⟨["fees", "distribute", "total"], 250,
        [("sender", "S"), ("withdrawer", "D"), ("contract", "C")]⟩] ∧
    (PostTxProcessing exKeeper (exCtx (5 * 10 ^ 17) "") (exMsg 10) ⟨50⟩).1 = .returned none ∧
    (PostTxProcessing exKeeper (exCtx (5 * 10 ^ 17) "") (exMsg 10) ⟨50⟩).2.events =
      (exCtx (5 * 10 ^ 17) "").events ++
      [⟨EventTypeDistributeDevFee,
        [(AttributeKeySender, "S"), (AttributeKeyContract, "C"),
         (AttributeKeyWithdrawAddress, "D")]⟩] ∧
    ∃ samples : List MetricSample,
      (PostTxProcessing exKeeper (exCtx (5 * 10 ^ 17) "") (exMsg 10) ⟨50⟩).2.telemetry =
        (exCtx (5 * 10 ^ 17) "").telemetry ++ samples ∧
      samples.length ≤ 1 :=
  ⟨by decide, by decide,
   success_path exKeeper (exCtx (5 * 10 ^ 17) "") (exMsg 10) ⟨50⟩ exC ⟨"C", "D", ""⟩
    ⟨"fee_collector", [1], [⟨"aevmos", ⟨250⟩⟩]⟩ rfl rfl (by decide) rfl⟩


/-- C8, the claim refuted: fees are enabled, the target is registered and its record has the
withdraw address "X", which the address parser rejects; the hook does not return an error,
it panics with the parser's error. -/
theorem malformed_beneficiary_counterexample :
    (exCtx (5 * 10 ^ 17) "X").params.EnableFees = true ∧
    (exMsg 10).To = some exC ∧
    (exCtx (5 * 10 ^ 17) "X").fees exC = some ⟨"C", "D", "X"⟩ ∧
    exKeeper.accAddressFromBech32 "X" = .error "decoding bech32 failed" ∧
    (PostTxProcessing exKeeper (exCtx (5 * 10 ^ 17) "X") (exMsg 10) ⟨50⟩).1 =
      .panicked "decoding bech32 failed" ∧
    ¬ ∃ e, (PostTxProcessing exKeeper (exCtx (5 * 10 ^ 17) "X") (exMsg 10) ⟨50⟩).1 =
      .returned (some e) := by
  refine ⟨rfl, rfl, by decide, rfl, by decide, ?_⟩
  rintro ⟨e, he⟩
  have hp : (PostTxProcessing exKeeper (exCtx (5 * 10 ^ 17) "X") (exMsg 10) ⟨50⟩).1 =
      .panicked "decoding bech32 failed" := by decide
  rw [hp] at he
  cases he

/-- C8 as amended: with fees enabled, a present target and a registered record whose
resolved beneficiary string the address parser rejects, the hook does not return: it
panics, with the parser's error whenever the share itself was computed, before anything is
handed to the bank keeper, and it appends no event and no sample. -/
theorem malformed_beneficiary_panics (k : Keeper) (ctx : Ctx) (msg : Message)
    (receipt : Receipt) (contract : Address) (fee : Fee) (reason : String)
    (hen : ctx.params.EnableFees = true) (hto : msg.To = some contract)
    (hfee : ctx.fees contract = some fee)
    (hbad : k.accAddressFromBech32
      (if fee.WithdrawAddress = "" then fee.DeployerAddress else fee.WithdrawAddress) =
        .error reason) :
    (∃ why, (PostTxProcessing k ctx msg receipt).1 = .panicked why) ∧
    (∀ share, developerFee ctx.params msg receipt = .ok share →
      (PostTxProcessing k ctx msg receipt).1 = .panicked reason) ∧
    (PostTxProcessing k ctx msg receipt).2.bankCalls = ctx.bankCalls ∧
    (PostTxProcessing k ctx msg receipt).2.events = ctx.events ∧
    (PostTxProcessing k ctx msg receipt).2.telemetry = ctx.telemetry := by
  have hbad1 : k.accAddressFromBech32 (resolveWithdrawAddr fee) = .error reason := hbad
  cases hdf : developerFee ctx.params msg receipt with
  | error why =>
    rw [PostTxProcessing_panic_share k ctx msg receipt hen hto hfee hdf]
    refine ⟨⟨why, rfl⟩, ?_, rfl, rfl, rfl⟩
    intro share hs
    cases hs
  | ok share =>
    rw [PostTxProcessing_panic_address k ctx msg receipt hen hto hfee hdf hbad1]
    exact ⟨⟨reason, rfl⟩, fun _ _ => rfl, rfl, rfl, rfl⟩

/-- Witness of C8 as amended: a record whose withdraw address is the malformed "Y". -/
theorem malformed_beneficiary_panics_witness :
    exKeeper.accAddressFromBech32 (if ("Y" : String) = "" then "D" else "Y") =
      .error "decoding bech32 failed" ∧
    (∃ why, (PostTxProcessing exKeeper (exCtx (2 * 10 ^ 17) "Y") (exMsg 1000) ⟨100⟩).1 =
      .panicked why) ∧
    (PostTxProcessing exKeeper (exCtx (2 * 10 ^ 17) "Y") (exMsg 1000) ⟨100⟩).2.bankCalls =
      (exCtx (2 * 10 ^ 17) "Y").bankCalls :=
  ⟨rfl,
   (malformed_beneficiary_panics exKeeper (exCtx (2 * 10 ^ 17) "Y") (exMsg 1000) ⟨100⟩ exC
      ⟨"C", "D", "Y"⟩ "decoding bech32 failed" rfl rfl (by decide) rfl).1,
   (malformed_beneficiary_panics exKeeper (exCtx (2 * 10 ^ 17) "Y") (exMsg 1000) ⟨100⟩ exC
      ⟨"C", "D", "Y"⟩ "decoding bech32 failed" rfl rfl (by decide) rfl).2.2.1⟩


set_option maxRecDepth 8000 in
/-- C9, the claim refuted: the rate is 0.5, the only record has a well-formed deployer
address and an empty withdraw address, the gas price `2^255` is non-negative and the gas
used is 2; the product does not fit the bound of `sdk.Int` and the hook panics in `Mul`. -/
theorem overflow_panics_counterexample :
    (0 ≤ (exCtx (5 * 10 ^ 17) "").params.DeveloperShares.i ∧
      (exCtx (5 * 10 ^ 17) "").params.DeveloperShares.i ≤ 10 ^ 18) ∧
    (∀ a fee, (exCtx (5 * 10 ^ 17) "").fees a = some fee →
      (∃ x, exKeeper.accAddressFromBech32 fee.DeployerAddress = .ok x) ∧
      (fee.WithdrawAddress = "" ∨
        ∃ x, exKeeper.accAddressFromBech32 fee.WithdrawAddress = .ok x)) ∧
    0 ≤ (exMsg (2 ^ 255)).GasPrice ∧
    (2 : Nat) < 2 ^ 64 ∧
    (PostTxProcessing exKeeper (exCtx (5 * 10 ^ 17) "") (exMsg (2 ^ 255)) ⟨2⟩).1 =
      .panicked "Int overflow" ∧
    ¬ ∃ err, (PostTxProcessing exKeeper (exCtx (5 * 10 ^ 17) "") (exMsg (2 ^ 255)) ⟨2⟩).1 =
      .returned err := by
  have hp : (PostTxProcessing exKeeper (exCtx (5 * 10 ^ 17) "") (exMsg (2 ^ 255)) ⟨2⟩).1 =
      .panicked "Int overflow" := by decide
  refine ⟨⟨by decide, by decide⟩, ?_, by decide, by decide, hp, ?_⟩
  · intro a fee h
    simp only [exCtx] at h
    split at h
    · simp only [Option.some.injEq] at h
      subst h
      exact ⟨⟨[1], rfl⟩, Or.inl rfl⟩
    · cases h
  · rintro ⟨err, he⟩
    rw [hp] at he
    cases he

/-- C9 as amended: when, besides the rate in [0,1], the well-formed registry and the
non-negative gas price, the gas used is a `uint64`, the gas price and the product
`gasUsed * gasPrice` are below `2^256` and the product with the rate's integer is below
`2^315` (the bounds of `sdk.Int` and `sdk.Dec`), the hook returns, with `nil` or with an
error: no panicking branch is taken. -/
theorem total_within_bounds (k : Keeper) (ctx : Ctx) (msg : Message) (receipt : Receipt)
    (hs0 : 0 ≤ ctx.params.DeveloperShares.i) (hs1 : ctx.params.DeveloperShares.i ≤ 10 ^ 18)
    (hwf : ∀ a fee, ctx.fees a = some fee →
      (∃ x, k.accAddressFromBech32 fee.DeployerAddress = .ok x) ∧
      (fee.WithdrawAddress = "" ∨ ∃ x, k.accAddressFromBech32 fee.WithdrawAddress = .ok x))
    (hgp : 0 ≤ msg.GasPrice) (hgu : receipt.GasUsed < 2 ^ 64)
    (h1 : msg.GasPrice < 2 ^ maxBitLen)
    (h2 : (receipt.GasUsed : Int) * msg.GasPrice < 2 ^ maxBitLen)
    (h3 : (receipt.GasUsed : Int) * msg.GasPrice * ctx.params.DeveloperShares.i
      < 2 ^ maxDecBitLen) :
    ∃ err, (PostTxProcessing k ctx msg receipt).1 = .returned err := by
  rcases early_or_reached ctx msg with h | ⟨contract, fee, hen, hto, hfee⟩
  · rw [PostTxProcessing_early k ctx msg receipt h]
    exact ⟨none, rfl⟩
  · have hdf := developerFee_ok hgu hgp hs0 hs1 h1 h2 h3
    have hacc : ∃ x, k.accAddressFromBech32 (resolveWithdrawAddr fee) = .ok x := by
      obtain ⟨hd, hw⟩ := hwf contract fee hfee
      unfold resolveWithdrawAddr
      by_cases he : fee.WithdrawAddress = ""
      · rw [if_pos he]; exact hd
      · rw [if_neg he]
        rcases hw with hw | hw
        · exact absurd hw he
        · exact hw
    obtain ⟨x, hacc⟩ := hacc
    rcases PostTxProcessing_reached k ctx msg receipt hen hto hfee with ⟨reason, _, h | h⟩ |
      ⟨share, recipient, _, _, ⟨err, _, h⟩ | ⟨_, h⟩⟩
    · rw [hdf] at h; cases h
    · rw [hacc] at h; cases h
    · rw [h]; exact ⟨_, rfl⟩
    · rw [h]; exact ⟨_, rfl⟩

set_option maxRecDepth 8000 in
/-- Witness of C9 as amended: the scenario of the spec, rate 0.5, gas price 10, gas used
50, on a registry whose only record has deployer "D" and no withdraw address. -/
theorem total_within_bounds_witness :
    ∃ err, (PostTxProcessing exKeeper (exCtx (5 * 10 ^ 17) "") (exMsg 10) ⟨50⟩).1 =
      .returned err :=
  total_within_bounds exKeeper (exCtx (5 * 10 ^ 17) "") (exMsg 10) ⟨50⟩
    (by decide) (by decide)
    (fun a fee h => by
      simp only [exCtx] at h
      split at h
      · simp only [Option.some.injEq] at h
        subst h
        exact ⟨⟨[1], rfl⟩, Or.inl rfl⟩
      · cases h)
    (by decide) (by decide) (by decide) (by decide) (by decide)

/-- C10: for a non-negative gas price and a share rate in [0,1], whatever the hook hands to
the bank keeper is at most one transfer of one coin whose amount is non-negative and at
most the raw fee `gasUsed * gasPrice`. -/
theorem share_le_raw_fee (k : Keeper) (ctx : Ctx) (msg : Message) (receipt : Receipt)
    (hgp : 0 ≤ msg.GasPrice)
    (hs0 : 0 ≤ ctx.params.DeveloperShares.i) (hs1 : ctx.params.DeveloperShares.i ≤ 10 ^ 18) :
    ∃ issued : List Transfer,
      (PostTxProcessing k ctx msg receipt).2.bankCalls = ctx.bankCalls ++ issued ∧
      issued.length ≤ 1 ∧
      ∀ t ∈ issued, ∃ share : SdkInt,
        t.amt = [⟨ctx.evmDenom, share⟩] ∧ 0 ≤ share.i ∧
        share.i ≤ (receipt.GasUsed : Int) * msg.GasPrice := by
  rcases PostTxProcessing_calls k ctx msg receipt with h |
    ⟨contract, fee, share, recipient, _, _, _, hdf, _, h⟩
  · exact ⟨[], by rw [h]; simp, by simp, by simp⟩
  · refine ⟨_, h, by simp, ?_⟩
    intro t ht
    simp only [List.mem_singleton] at ht
    subst ht
    exact ⟨share, rfl, share_le hgp hs0 hs1 hdf⟩

/-- Witness of C10: a raw fee of 100 at rate 0.333333333333333333; the one transfer is of
33. -/
theorem share_le_raw_fee_witness :
    (PostTxProcessing exKeeper (exCtx 333333333333333333 "W") (exMsg 1) ⟨100⟩).2.bankCalls =
      [⟨"fee_collector", [2], [⟨"aevmos", ⟨33⟩⟩]⟩] ∧
    ∃ issued : List Transfer,
      (PostTxProcessing exKeeper (exCtx 333333333333333333 "W") (exMsg 1) ⟨100⟩).2.bankCalls =
        (exCtx 333333333333333333 "W").bankCalls ++ issued ∧
      issued.length ≤ 1 ∧
      ∀ t ∈ issued, ∃ share : SdkInt,
        t.amt = [⟨"aevmos", share⟩] ∧ 0 ≤ share.i ∧
        share.i ≤ ((100 : Nat) : Int) * 1 :=
  ⟨by decide,
   share_le_raw_fee exKeeper (exCtx 333333333333333333 "W") (exMsg 1) ⟨100⟩
    (by decide) (by decide) (by decide)⟩


/-! ## Raw fee, telemetry, error context, frame and keys -/

theorem developerFee_eq_txFee (params : Params) (msg : Message) (receipt : Receipt) :
    developerFee params msg receipt =
      (txFee msg receipt >>= fun t =>
        t.ToDec.Mul params.DeveloperShares >>= fun d => d.TruncateInt) := by
  unfold developerFee txFee
  cases NewIntFromBigInt msg.GasPrice <;> rfl

theorem txFee_val {msg : Message} {receipt : Receipt} {v : SdkInt}
    (h : txFee msg receipt = .ok v) : v.i = (receipt.GasUsed : Int) * msg.GasPrice := by
  unfold txFee at h
  obtain ⟨gp, h1, h⟩ := Except_bind_ok h
  rw [SdkInt_Mul_val h, NewIntFromBigInt_val h1, NewIntFromUint64]

theorem txFee_ok {msg : Message} {receipt : Receipt}
    (hgu : receipt.GasUsed < 2 ^ 64) (hgp : 0 ≤ msg.GasPrice)
    (h1 : msg.GasPrice < 2 ^ maxBitLen)
    (h2 : (receipt.GasUsed : Int) * msg.GasPrice < 2 ^ maxBitLen) :
    txFee msg receipt = .ok ⟨(receipt.GasUsed : Int) * msg.GasPrice⟩ := by
  have hfee0 : 0 ≤ (receipt.GasUsed : Int) * msg.GasPrice :=
    mul_nonneg (Int.ofNat_nonneg _) hgp
  have c1 : BitLen msg.GasPrice ≤ maxBitLen := BitLen_le_of_nonneg hgp h1
  have c2 : BitLen ((receipt.GasUsed : Int) * msg.GasPrice) ≤ maxBitLen :=
    BitLen_le_of_nonneg hfee0 h2
  have hm : maxBitLen = 256 := rfl
  have c0 : ¬ ((BitLen (receipt.GasUsed : Int) : Int) + (BitLen msg.GasPrice : Int) - 1
      > (maxBitLen : Int)) := by
    have hu : BitLen (receipt.GasUsed : Int) ≤ 64 :=
      BitLen_le_of_nonneg (Int.ofNat_nonneg _) (by exact_mod_cast hgu)
    by_cases ha : (receipt.GasUsed : Int) = 0
    · have ha0 : BitLen (receipt.GasUsed : Int) ≤ 0 :=
        BitLen_le_of_nonneg (Int.ofNat_nonneg _) (by rw [ha]; norm_num)
      omega
    by_cases hb : msg.GasPrice = 0
    · have hb0 : BitLen msg.GasPrice ≤ 0 := BitLen_le_of_nonneg hgp (by rw [hb]; norm_num)
      omega
    have := BitLen_mul_ge ha hb
    omega
  simp only [txFee, NewIntFromBigInt, if_neg (not_lt.mpr c1), SdkInt.Mul, NewIntFromUint64,
    if_neg c0, if_neg (not_lt.mpr c2), bind, Except.bind]

theorem BitLen_gt_of_le {x : Int} {k : Nat} (h : (2 : Int) ^ k ≤ x) : BitLen x > k := by
  by_contra hle
  have hlt := (BitLen_le_iff x k).mp (not_lt.mp hle)
  have hx0 : 0 ≤ x := le_trans (by positivity) h
  have : (x.natAbs : Int) < 2 ^ k := by exact_mod_cast hlt
  rw [Int.natAbs_of_nonneg hx0] at this
  omega

theorem txFee_panics_beyond {msg : Message} {receipt : Receipt}
    (h : (2 : Int) ^ maxBitLen ≤ msg.GasPrice ∨
      (2 : Int) ^ maxBitLen ≤ (receipt.GasUsed : Int) * msg.GasPrice) :
    ∃ reason, txFee msg receipt = .error reason := by
  unfold txFee
  by_cases hc : BitLen msg.GasPrice > maxBitLen
  · refine ⟨"NewIntFromBigInt() out of bound", ?_⟩
    simp only [NewIntFromBigInt, if_pos hc, bind, Except.bind]
  · have hprod : BitLen ((receipt.GasUsed : Int) * msg.GasPrice) > maxBitLen := by
      rcases h with h | h
      · exact absurd (BitLen_gt_of_le h) hc
      · exact BitLen_gt_of_le h
    refine ⟨"Int overflow", ?_⟩
    by_cases hpre : ((BitLen (receipt.GasUsed : Int) : Int) + (BitLen msg.GasPrice : Int) - 1
        > (maxBitLen : Int))
    · simp only [NewIntFromBigInt, if_neg hc, bind, Except.bind, SdkInt.Mul, NewIntFromUint64,
        if_pos hpre]
    · simp only [NewIntFromBigInt, if_neg hc, bind, Except.bind, SdkInt.Mul, NewIntFromUint64,
        if_neg hpre, if_pos hprod]

set_option maxRecDepth 8000 in
/-- C11, the claim refuted: with gas used 4 and the non-negative gas price `2^255`, line 55
does not yield the product `2^257`: `Int.Mul` panics with "Int overflow", and so does the
hook. -/
theorem raw_fee_overflow_counterexample :
    (4 : Nat) < 2 ^ 64 ∧ 0 ≤ (exMsg (2 ^ 255)).GasPrice ∧
    txFee (exMsg (2 ^ 255)) ⟨4⟩ = .error "Int overflow" ∧
    (PostTxProcessing exKeeper (exCtx (5 * 10 ^ 17) "") (exMsg (2 ^ 255)) ⟨4⟩).1 =
      .panicked "Int overflow" ∧
    ¬ ∃ v, txFee (exMsg (2 ^ 255)) ⟨4⟩ = .ok v := by
  have ht : txFee (exMsg (2 ^ 255)) ⟨4⟩ = .error "Int overflow" := by rfl
  refine ⟨by decide, by decide, ht, by decide, ?_⟩
  rintro ⟨v, hv⟩
  rw [ht] at hv
  cases hv

/-- C11 as amended: for a `uint64` gas used and a non-negative gas price, when the gas price
and the product `gasUsed * gasPrice` are below `2^256` (the bound of `sdk.Int`), line 55
yields exactly the mathematical product; whenever line 55 yields a value at all, bound or no
bound, that value is the mathematical product: there is no wrap-around and no rounding; and
beyond the bound, that is for every gas price or product of at least `2^256`, line 55
panics, the share of line 56 with it, and so does the hook once fees are enabled and the
target is registered. The share of line 56 is computed from the value of line 55. -/
theorem raw_fee_exact_within_bounds (msg : Message) (receipt : Receipt)
    (hgu : receipt.GasUsed < 2 ^ 64) (hgp : 0 ≤ msg.GasPrice)
    (h1 : msg.GasPrice < 2 ^ maxBitLen)
    (h2 : (receipt.GasUsed : Int) * msg.GasPrice < 2 ^ maxBitLen) :
    txFee msg receipt = .ok ⟨(receipt.GasUsed : Int) * msg.GasPrice⟩ ∧
    (∀ (msg1 : Message) (receipt1 : Receipt) (v : SdkInt), txFee msg1 receipt1 = .ok v →
      v.i = (receipt1.GasUsed : Int) * msg1.GasPrice) ∧
    (∀ params : Params, developerFee params msg receipt =
      (txFee msg receipt >>= fun t =>
        t.ToDec.Mul params.DeveloperShares >>= fun d => d.TruncateInt)) ∧
    ∀ (msg1 : Message) (receipt1 : Receipt),
      ((2 : Int) ^ maxBitLen ≤ msg1.GasPrice ∨
        (2 : Int) ^ maxBitLen ≤ (receipt1.GasUsed : Int) * msg1.GasPrice) →
      ∃ reason, txFee msg1 receipt1 = .error reason ∧
        (∀ params : Params, developerFee params msg1 receipt1 = .error reason) ∧
        ∀ (k : Keeper) (ctx : Ctx) (contract : Address) (fee : Fee),
          ctx.params.EnableFees = true → msg1.To = some contract →
          ctx.fees contract = some fee →
          PostTxProcessing k ctx msg1 receipt1 = (.panicked reason, ctx) := by
  refine ⟨txFee_ok hgu hgp h1 h2, fun _ _ _ h => txFee_val h,
    fun params => developerFee_eq_txFee params msg receipt, ?_⟩
  intro msg1 receipt1 hbeyond
  obtain ⟨reason, hr⟩ := txFee_panics_beyond hbeyond
  have hdf : ∀ params : Params, developerFee params msg1 receipt1 = .error reason := by
    intro params
    rw [developerFee_eq_txFee, hr]
    rfl
  exact ⟨reason, hr, hdf, fun k ctx contract fee hen hto hfee =>
    PostTxProcessing_panic_share k ctx msg1 receipt1 hen hto hfee (hdf ctx.params)⟩

set_option maxRecDepth 8000 in
/-- Witness of C11 as amended: the largest `uint64` gas used at a gas price of `2^190`, whose
product has 254 bits, is computed exactly; gas used 1 at the gas price `2^256` panics. -/
theorem raw_fee_exact_within_bounds_witness :
    txFee (exMsg (2 ^ 190)) ⟨2 ^ 64 - 1⟩ =
      .ok ⟨((2 ^ 64 - 1 : Nat) : Int) * (exMsg (2 ^ 190)).GasPrice⟩ ∧
    ∃ reason, txFee (exMsg (2 ^ 256)) ⟨1⟩ = .error reason ∧
      (∀ params : Params, developerFee params (exMsg (2 ^ 256)) ⟨1⟩ = .error reason) ∧
      ∀ (k : Keeper) (ctx : Ctx) (contract : Address) (fee : Fee),
        ctx.params.EnableFees = true → (exMsg (2 ^ 256)).To = some contract →
        ctx.fees contract = some fee →
        PostTxProcessing k ctx (exMsg (2 ^ 256)) ⟨1⟩ = (.panicked reason, ctx) :=
  ⟨(raw_fee_exact_within_bounds (exMsg (2 ^ 190)) ⟨2 ^ 64 - 1⟩
      (by decide) (by decide) (by decide) (by decide)).1,
   (raw_fee_exact_within_bounds (exMsg (2 ^ 190)) ⟨2 ^ 64 - 1⟩
      (by decide) (by decide) (by decide) (by decide)).2.2.2 (exMsg (2 ^ 256)) ⟨1⟩
      (Or.inl (by decide))⟩


theorem deferredTelemetry_telemetry (ctx : Ctx) (share : SdkInt) (msg : Message) (w : String)
    (fee : Fee) :
    (deferredTelemetry ctx share msg w fee).telemetry = ctx.telemetry ++
      (if share.IsInt64 = true then
        [⟨[ModuleName, "distribute", "total"], float32OfInt64 share.i,
          [("sender", msg.From.hex), ("withdrawer", w), ("contract", fee.ContractAddress)]⟩]
      else []) := by
  unfold deferredTelemetry
  split
  · rfl
  · simp

/-- What the hook has done once a transfer it issued was accepted by the bank keeper. -/
theorem PostTxProcessing_accepted (k : Keeper) (ctx : Ctx) (msg : Message) (receipt : Receipt)
    {contract : Address} {fee : Fee} {t : Transfer}
    (hto : msg.To = some contract) (hfee : ctx.fees contract = some fee)
    (hcall : (PostTxProcessing k ctx msg receipt).2.bankCalls = ctx.bankCalls ++ [t])
    (hbank : k.bankSend t = none) :
    ∃ share recipient,
      t = ⟨k.feeCollectorName, recipient, [⟨ctx.evmDenom, share⟩]⟩ ∧
      developerFee ctx.params msg receipt = .ok share ∧
      k.accAddressFromBech32 (resolveWithdrawAddr fee) = .ok recipient ∧
      PostTxProcessing k ctx msg receipt =
        (.returned none,
         deferredTelemetry
          { ctx with
            bankCalls := ctx.bankCalls ++ [t]
            events := ctx.events ++
              [⟨EventTypeDistributeDevFee,
                [(AttributeKeySender, msg.From.hex), (AttributeKeyContract, contract.hex),
                 (AttributeKeyWithdrawAddress, resolveWithdrawAddr fee)]⟩] }
          share msg (resolveWithdrawAddr fee) fee) := by
  cases hen : ctx.params.EnableFees with
  | false =>
    rw [PostTxProcessing_early k ctx msg receipt (Or.inl hen)] at hcall
    simp at hcall
  | true =>
    rcases PostTxProcessing_reached k ctx msg receipt hen hto hfee with ⟨reason, h, _⟩ |
      ⟨share, recipient, hdf, hacc, h⟩
    · rw [h] at hcall
      simp at hcall
    · rcases h with ⟨err1, hb, h⟩ | ⟨hb, h⟩
      · rw [h] at hcall
        have ht := List.append_cancel_left hcall
        simp only [List.cons.injEq, and_true] at ht
        rw [ht, hbank] at hb
        cases hb
      · have hc := hcall
        rw [h, deferredTelemetry_bankCalls] at hc
        have ht := List.append_cancel_left hc
        simp only [List.cons.injEq, and_true] at ht
        refine ⟨share, recipient, ht.symm, hdf, hacc, ?_⟩
        rw [h, ht]

/-- What the hook has done once a transfer it issued was refused by the bank keeper. -/
theorem PostTxProcessing_refused (k : Keeper) (ctx : Ctx) (msg : Message) (receipt : Receipt)
    {contract : Address} {fee : Fee} {t : Transfer} {err : String}
    (hto : msg.To = some contract) (hfee : ctx.fees contract = some fee)
    (hcall : (PostTxProcessing k ctx msg receipt).2.bankCalls = ctx.bankCalls ++ [t])
    (hbank : k.bankSend t = some err) :
    ∃ share recipient,
      t = ⟨k.feeCollectorName, recipient, [⟨ctx.evmDenom, share⟩]⟩ ∧
      PostTxProcessing k ctx msg receipt =
        (.returned (some ⟨err, wrapDescription [⟨ctx.evmDenom, share⟩] (resolveWithdrawAddr fee)
            contract⟩),
         { ctx with bankCalls := ctx.bankCalls ++ [t] }) := by
  cases hen : ctx.params.EnableFees with
  | false =>
    rw [PostTxProcessing_early k ctx msg receipt (Or.inl hen)] at hcall
    simp at hcall
  | true =>
    rcases PostTxProcessing_reached k ctx msg receipt hen hto hfee with ⟨reason, h, _⟩ |
      ⟨share, recipient, hdf, hacc, h⟩
    · rw [h] at hcall
      simp at hcall
    · rcases h with ⟨err1, hb, h⟩ | ⟨hb, h⟩
      · have hc := hcall
        rw [h] at hc
        have ht := List.append_cancel_left hc
        simp only [List.cons.injEq, and_true] at ht
        rw [ht, hbank] at hb
        cases hb
        exact ⟨share, recipient, ht.symm, by rw [h, ht]⟩
      · rw [h, deferredTelemetry_bankCalls] at hcall
        have ht := List.append_cancel_left hcall
        simp only [List.cons.injEq, and_true] at ht
        rw [ht, hbank] at hb
        cases hb

theorem float32OfInt64_small {v : Int} (h : v.natAbs < 2 ^ 24) : float32OfInt64 v = v := by
  have hlen : bitLenAux v.natAbs v.natAbs ≤ 24 :=
    (bitLenAux_le_iff _ _ _ (le_refl _)).mpr h
  unfold float32OfInt64 float32OfNat
  simp only [if_pos hlen]
  split
  · omega
  · omega


/-- C12: when the target of the message is registered and the hook has handed a transfer
`t` to the bank keeper, which accepts it, the hook returns `nil` and appends its one event
in every case; it appends one sample to the telemetry exactly when the transferred share
fits a signed 64-bit integer (`IsInt64`), and none when it does not. -/
theorem metric_fail_soft (k : Keeper) (ctx : Ctx) (msg : Message) (receipt : Receipt)
    (contract : Address) (fee : Fee) (t : Transfer)
    (hto : msg.To = some contract) (hfee : ctx.fees contract = some fee)
    (hcall : (PostTxProcessing k ctx msg receipt).2.bankCalls = ctx.bankCalls ++ [t])
    (hbank : k.bankSend t = none) :
    ∃ share : SdkInt, t.amt = [⟨ctx.evmDenom, share⟩] ∧
      (share.IsInt64 = true ↔ (-(2 : Int) ^ 63 ≤ share.i ∧ share.i < (2 : Int) ^ 63)) ∧
      (PostTxProcessing k ctx msg receipt).1 = .returned none ∧
      (PostTxProcessing k ctx msg receipt).2.events = ctx.events ++
        [⟨EventTypeDistributeDevFee,
          [(AttributeKeySender, msg.From.hex), (AttributeKeyContract, contract.hex),
           (AttributeKeyWithdrawAddress,
            if fee.WithdrawAddress = "" then fee.DeployerAddress else fee.WithdrawAddress)]⟩] ∧
      ((∃ m, (PostTxProcessing k ctx msg receipt).2.telemetry = ctx.telemetry ++ [m]) ↔
        share.IsInt64 = true) ∧
      (share.IsInt64 = false →
        (PostTxProcessing k ctx msg receipt).2.telemetry = ctx.telemetry) := by
  obtain ⟨share, recipient, ht, _, _, h⟩ :=
    PostTxProcessing_accepted k ctx msg receipt hto hfee hcall hbank
  refine ⟨share, by rw [ht], by simp [SdkInt.IsInt64], by rw [h], ?_, ?_, ?_⟩
  · rw [h, deferredTelemetry_events]
    rfl
  · rw [h, deferredTelemetry_telemetry]
    constructor
    · rintro ⟨m, hm⟩
      by_contra hno
      rw [if_neg hno] at hm
      have := congrArg List.length hm
      simp at this
    · intro hfit
      rw [if_pos hfit]
      exact ⟨_, rfl⟩
  · intro hno
    rw [h, deferredTelemetry_telemetry, hno]
    simp

set_option maxRecDepth 8000 in
/-- Witness of C12: gas used `2^63` at gas price 2 and rate 1 gives the share `2^64`, which
does not fit an `int64`: the transfer and the event are there, the sample is not. -/
theorem metric_fail_soft_witness :
    (PostTxProcessing exKeeper (exCtx (10 ^ 18) "") (exMsg 2) ⟨2 ^ 63⟩).2.bankCalls =
      (exCtx (10 ^ 18) "").bankCalls ++ [⟨"fee_collector", [1], [⟨"aevmos", ⟨2 ^ 64⟩⟩]⟩] ∧
    (PostTxProcessing exKeeper (exCtx (10 ^ 18) "") (exMsg 2) ⟨2 ^ 63⟩).2.telemetry = [] ∧
    (PostTxProcessing exKeeper (exCtx (10 ^ 18) "") (exMsg 2) ⟨2 ^ 63⟩).2.events =
      [⟨EventTypeDistributeDevFee,
        [(AttributeKeySender, "S"), (AttributeKeyContract, "C"),
         (AttributeKeyWithdrawAddress, "D")]⟩] ∧
    ∃ share : SdkInt,
      (⟨"fee_collector", [1], [⟨"aevmos", ⟨2 ^ 64⟩⟩]⟩ : Transfer).amt =
        [⟨(exCtx (10 ^ 18) "").evmDenom, share⟩] ∧
      (share.IsInt64 = true ↔ (-(2 : Int) ^ 63 ≤ share.i ∧ share.i < (2 : Int) ^ 63)) ∧
      (PostTxProcessing exKeeper (exCtx (10 ^ 18) "") (exMsg 2) ⟨2 ^ 63⟩).1 = .returned none ∧
      (PostTxProcessing exKeeper (exCtx (10 ^ 18) "") (exMsg 2) ⟨2 ^ 63⟩).2.events =
        (exCtx (10 ^ 18) "").events ++
        [⟨EventTypeDistributeDevFee,
          [(AttributeKeySender, (exMsg 2).From.hex), (AttributeKeyContract, exC.hex),
           (AttributeKeyWithdrawAddress, if ("" : String) = "" then "D" else "")]⟩] ∧
      ((∃ m, (PostTxProcessing exKeeper (exCtx (10 ^ 18) "") (exMsg 2) ⟨2 ^ 63⟩).2.telemetry =
          (exCtx (10 ^ 18) "").telemetry ++ [m]) ↔ share.IsInt64 = true) ∧
      (share.IsInt64 = false →
        (PostTxProcessing exKeeper (exCtx (10 ^ 18) "") (exMsg 2) ⟨2 ^ 63⟩).2.telemetry =
          (exCtx (10 ^ 18) "").telemetry) :=
  ⟨by decide, by decide, by decide,
   metric_fail_soft exKeeper (exCtx (10 ^ 18) "") (exMsg 2) ⟨2 ^ 63⟩ exC ⟨"C", "D", ""⟩
    ⟨"fee_collector", [1], [⟨"aevmos", ⟨2 ^ 64⟩⟩]⟩ rfl rfl (by decide) rfl⟩

/-- C13, the claim refuted: gas used 16777217 at gas price 1 and rate 1 transfers 16777217,
and the sample that is emitted has the value 16777216, the nearest `float32`. -/
theorem metric_value_counterexample :
    (PostTxProcessing exKeeper (exCtx (10 ^ 18) "") (exMsg 1) ⟨16777217⟩).1 = .returned none ∧
    (PostTxProcessing exKeeper (exCtx (10 ^ 18) "") (exMsg 1) ⟨16777217⟩).2.bankCalls =
      [⟨"fee_collector", [1], [⟨"aevmos", ⟨16777217⟩⟩]⟩] ∧
    (PostTxProcessing exKeeper (exCtx (10 ^ 18) "") (exMsg 1) ⟨16777217⟩).2.telemetry =
      [⟨["fees", "distribute", "total"], 16777216,
        [("sender", "S"), ("withdrawer", "D"), ("contract", "C")]⟩] ∧
    (16777216 : Int) ≠ 16777217 := by
  refine ⟨by decide, by decide, by decide, by decide⟩

/-- C13 as amended: when the target of the message is registered, the bank keeper has
accepted the transfer `t` and a sample `m` was appended to the telemetry, the value of `m`
is the `float32` conversion of the transferred share, which equals the share whenever the
share is below `2^24` in absolute value; its keys are the module name, "distribute" and
"total", and its labels are the sender of the message, the resolved beneficiary and the
contract address of the record. -/
theorem metric_value_is_float32_of_share (k : Keeper) (ctx : Ctx) (msg : Message)
    (receipt : Receipt) (contract : Address) (fee : Fee) (t : Transfer) (m : MetricSample)
    (hto : msg.To = some contract) (hfee : ctx.fees contract = some fee)
    (hcall : (PostTxProcessing k ctx msg receipt).2.bankCalls = ctx.bankCalls ++ [t])
    (hbank : k.bankSend t = none)
    (hm : (PostTxProcessing k ctx msg receipt).2.telemetry = ctx.telemetry ++ [m]) :
    ∃ share : SdkInt, t.amt = [⟨ctx.evmDenom, share⟩] ∧
      m.val = float32OfInt64 share.i ∧
      (share.i.natAbs < 2 ^ 24 → m.val = share.i) ∧
      m.keys = [ModuleName, "distribute", "total"] ∧
      m.labels = [("sender", msg.From.hex),
        ("withdrawer",
          if fee.WithdrawAddress = "" then fee.DeployerAddress else fee.WithdrawAddress),
        ("contract", fee.ContractAddress)] := by
  obtain ⟨share, recipient, ht, _, _, h⟩ :=
    PostTxProcessing_accepted k ctx msg receipt hto hfee hcall hbank
  rw [h, deferredTelemetry_telemetry] at hm
  have hm1 := List.append_cancel_left hm
  by_cases hfit : share.IsInt64 = true
  · rw [if_pos hfit] at hm1
    simp only [List.cons.injEq, and_true] at hm1
    subst hm1
    refine ⟨share, by rw [ht], rfl, fun hs => float32OfInt64_small hs, rfl, rfl⟩
  · rw [if_neg hfit] at hm1
    cases hm1

/-- Witness of C13 as amended: the share 250 gives the sample 250. -/
theorem metric_value_is_float32_of_share_witness :
    (PostTxProcessing exKeeper (exCtx (5 * 10 ^ 17) "") (exMsg 10) ⟨50⟩).2.telemetry =
      (exCtx (5 * 10 ^ 17) "").telemetry ++
        [⟨["fees", "distribute", "total"], 250,
          [("sender", "S"), ("withdrawer", "D"), ("contract", "C")]⟩] ∧
    ∃ share : SdkInt,
      (⟨"fee_collector", [1], [⟨"aevmos", ⟨250⟩⟩]⟩ : Transfer).amt =
        [⟨(exCtx (5 * 10 ^ 17) "").evmDenom, share⟩] ∧
      (250 : Int) = float32OfInt64 share.i ∧
      (share.i.natAbs < 2 ^ 24 → (250 : Int) = share.i) ∧
      ["fees", "distribute", "total"] = [ModuleName, "distribute", "total"] ∧
      [("sender", "S"), ("withdrawer", "D"), ("contract", "C")] =
        [("sender", (exMsg 10).From.hex),
         ("withdrawer", if ("" : String) = "" then "D" else ""),
         ("contract", "C")] :=
  ⟨by decide,
   metric_value_is_float32_of_share exKeeper (exCtx (5 * 10 ^ 17) "") (exMsg 10) ⟨50⟩ exC
    ⟨"C", "D", ""⟩ ⟨"fee_collector", [1], [⟨"aevmos", ⟨250⟩⟩]⟩
    ⟨["fees", "distribute", "total"], 250,
      [("sender", "S"), ("withdrawer", "D"), ("contract", "C")]⟩
    rfl rfl (by decide) rfl (by decide)⟩


/-- C14: with fees enabled, a present target, a registered record with a well-formed
beneficiary, and a truncated share of zero, the hook still hands the bank keeper one
transfer, of zero units, to the beneficiary; and when the bank keeper accepts it the hook
returns `nil` and appends the event and a sample, of value zero, as for any other share. -/
theorem zero_share_not_special_cased (k : Keeper) (ctx : Ctx) (msg : Message)
    (receipt : Receipt) (contract : Address) (fee : Fee) (recipient : AccAddress)
    (hen : ctx.params.EnableFees = true) (hto : msg.To = some contract)
    (hfee : ctx.fees contract = some fee)
    (hacc : k.accAddressFromBech32
      (if fee.WithdrawAddress = "" then fee.DeployerAddress else fee.WithdrawAddress) =
        .ok recipient)
    (hzero : developerFee ctx.params msg receipt = .ok ⟨0⟩) :
    (PostTxProcessing k ctx msg receipt).2.bankCalls = ctx.bankCalls ++
      [⟨k.feeCollectorName, recipient, [⟨ctx.evmDenom, ⟨0⟩⟩]⟩] ∧
    (k.bankSend ⟨k.feeCollectorName, recipient, [⟨ctx.evmDenom, ⟨0⟩⟩]⟩ = none →
      (PostTxProcessing k ctx msg receipt).1 = .returned none ∧
      (PostTxProcessing k ctx msg receipt).2.events = ctx.events ++
        [⟨EventTypeDistributeDevFee,
          [(AttributeKeySender, msg.From.hex), (AttributeKeyContract, contract.hex),
           (AttributeKeyWithdrawAddress,
            if fee.WithdrawAddress = "" then fee.DeployerAddress else fee.WithdrawAddress)]⟩] ∧
      (PostTxProcessing k ctx msg receipt).2.telemetry = ctx.telemetry ++
        [⟨[ModuleName, "distribute", "total"], 0,
          [("sender", msg.From.hex),
           ("withdrawer",
            if fee.WithdrawAddress = "" then fee.DeployerAddress else fee.WithdrawAddress),
           ("contract", fee.ContractAddress)]⟩]) := by
  have hacc1 : k.accAddressFromBech32 (resolveWithdrawAddr fee) = .ok recipient := hacc
  constructor
  · cases hbank : k.bankSend ⟨k.feeCollectorName, recipient, [⟨ctx.evmDenom, ⟨0⟩⟩]⟩ with
    | some err =>
      rw [PostTxProcessing_bank_error k ctx msg receipt hen hto hfee hzero hacc1 hbank]
    | none =>
      rw [PostTxProcessing_sent k ctx msg receipt hen hto hfee hzero hacc1 hbank,
        deferredTelemetry_bankCalls]
  · intro hbank
    rw [PostTxProcessing_sent k ctx msg receipt hen hto hfee hzero hacc1 hbank]
    refine ⟨rfl, ?_, ?_⟩
    · rw [deferredTelemetry_events]
      rfl
    · rw [deferredTelemetry_telemetry]
      rfl

/-- Witness of C14: a raw fee of 1 at rate 0.5 truncates to zero, and so does any fee at
rate 0; in both cases there is one transfer of zero units, one event and one sample. -/
theorem zero_share_not_special_cased_witness :
    developerFee (exCtx (5 * 10 ^ 17) "").params (exMsg 1) ⟨1⟩ = .ok ⟨0⟩ ∧
    (PostTxProcessing exKeeper (exCtx 0 "") (exMsg 10) ⟨50⟩).2.bankCalls =
      [⟨"fee_collector", [1], [⟨"aevmos", ⟨0⟩⟩]⟩] ∧
    (PostTxProcessing exKeeper (exCtx 0 "") (exMsg 10) ⟨50⟩).2.events.length = 1 ∧
    (PostTxProcessing exKeeper (exCtx 0 "") (exMsg 10) ⟨50⟩).2.telemetry.length = 1 ∧
    (PostTxProcessing exKeeper (exCtx (5 * 10 ^ 17) "") (exMsg 1) ⟨1⟩).2.bankCalls =
      (exCtx (5 * 10 ^ 17) "").bankCalls ++ [⟨"fee_collector", [1], [⟨"aevmos", ⟨0⟩⟩]⟩] ∧
    (exKeeper.bankSend ⟨"fee_collector", [1], [⟨"aevmos", ⟨0⟩⟩]⟩ = none →
      (PostTxProcessing exKeeper (exCtx (5 * 10 ^ 17) "") (exMsg 1) ⟨1⟩).1 = .returned none ∧
      (PostTxProcessing exKeeper (exCtx (5 * 10 ^ 17) "") (exMsg 1) ⟨1⟩).2.events =
        (exCtx (5 * 10 ^ 17) "").events ++
        [⟨EventTypeDistributeDevFee,
          [(AttributeKeySender, "S"), (AttributeKeyContract, "C"),
           (AttributeKeyWithdrawAddress, if ("" : String) = "" then "D" else "")]⟩] ∧
      (PostTxProcessing exKeeper (exCtx (5 * 10 ^ 17) "") (exMsg 1) ⟨1⟩).2.telemetry =
        (exCtx (5 * 10 ^ 17) "").telemetry ++
        [⟨[ModuleName, "distribute", "total"], 0,
          [("sender", "S"),
           ("withdrawer", if ("" : String) = "" then "D" else ""),
           ("contract", "C")]⟩]) :=
  ⟨rfl, by decide, by decide, by decide,
   zero_share_not_special_cased exKeeper (exCtx (5 * 10 ^ 17) "") (exMsg 1) ⟨1⟩ exC
    ⟨"C", "D", ""⟩ [1] rfl rfl (by decide) rfl rfl⟩

/-- C17: when the target of the message is registered and the bank keeper answers the
transfer `t` the hook issued with the error `err`, the hook returns an error whose cause is
`err` itself and whose description spells out the share with its denomination, the resolved
beneficiary address and the contract address. -/
theorem error_context (k : Keeper) (ctx : Ctx) (msg : Message) (receipt : Receipt)
    (contract : Address) (fee : Fee) (t : Transfer) (err : String)
    (hto : msg.To = some contract) (hfee : ctx.fees contract = some fee)
    (hcall : (PostTxProcessing k ctx msg receipt).2.bankCalls = ctx.bankCalls ++ [t])
    (hbank : k.bankSend t = some err) :
    ∃ share : SdkInt, t.amt = [⟨ctx.evmDenom, share⟩] ∧
      (PostTxProcessing k ctx msg receipt).1 = .returned (some
        { cause := err
          description :=
            "fee collector account failed to distribute developer fees (" ++
              (toString share.i ++ ctx.evmDenom) ++
            ") to withdraw address " ++
              (if fee.WithdrawAddress = "" then fee.DeployerAddress else fee.WithdrawAddress) ++
            ". contract " ++ contract.hex }) := by
  obtain ⟨share, recipient, ht, h⟩ :=
    PostTxProcessing_refused k ctx msg receipt hto hfee hcall hbank
  refine ⟨share, by rw [ht], ?_⟩
  rw [h]
  rfl

/-- Witness of C17: the bank keeper refuses the transfer of 250 for want of funds; the
error names 250aevmos, the beneficiary D and the contract C. -/
theorem error_context_witness :
    (PostTxProcessing exKeeperBroke (exCtx (5 * 10 ^ 17) "") (exMsg 10) ⟨50⟩).1 =
      .returned (some
        { cause := "insufficient funds"
          description := "fee collector account failed to distribute developer fees " ++
            "(250aevmos) to withdraw address D. contract C" }) ∧
    ∃ share : SdkInt,
      (⟨"fee_collector", [1], [⟨"aevmos", ⟨250⟩⟩]⟩ : Transfer).amt =
        [⟨(exCtx (5 * 10 ^ 17) "").evmDenom, share⟩] ∧
      (PostTxProcessing exKeeperBroke (exCtx (5 * 10 ^ 17) "") (exMsg 10) ⟨50⟩).1 =
        .returned (some
          { cause := "insufficient funds"
            description :=
              "fee collector account failed to distribute developer fees (" ++
                (toString share.i ++ (exCtx (5 * 10 ^ 17) "").evmDenom) ++
              ") to withdraw address " ++
                (if ("" : String) = "" then "D" else "") ++
              ". contract " ++ exC.hex }) :=
  ⟨by decide,
   error_context exKeeperBroke (exCtx (5 * 10 ^ 17) "") (exMsg 10) ⟨50⟩ exC ⟨"C", "D", ""⟩
    ⟨"fee_collector", [1], [⟨"aevmos", ⟨250⟩⟩]⟩ "insufficient funds" rfl rfl (by decide) rfl⟩


/-- C15: the three store prefixes are pairwise different, none is a prefix of another, and a
key made of one prefix followed by any bytes never equals a key made of another prefix
followed by any bytes. -/
theorem key_space_disjoint :
    (KeyPrefixFee ≠ KeyPrefixDeployer ∧ KeyPrefixFee ≠ KeyPrefixWithdraw ∧
      KeyPrefixDeployer ≠ KeyPrefixWithdraw) ∧
    (¬ KeyPrefixFee <+: KeyPrefixDeployer ∧ ¬ KeyPrefixDeployer <+: KeyPrefixFee ∧
      ¬ KeyPrefixFee <+: KeyPrefixWithdraw ∧ ¬ KeyPrefixWithdraw <+: KeyPrefixFee ∧
      ¬ KeyPrefixDeployer <+: KeyPrefixWithdraw ∧ ¬ KeyPrefixWithdraw <+: KeyPrefixDeployer) ∧
    ∀ a b : List Nat,
      KeyPrefixFee ++ a ≠ KeyPrefixDeployer ++ b ∧
      KeyPrefixFee ++ a ≠ KeyPrefixWithdraw ++ b ∧
      KeyPrefixDeployer ++ a ≠ KeyPrefixWithdraw ++ b := by
  refine ⟨⟨by decide, by decide, by decide⟩,
    ⟨by decide, by decide, by decide, by decide, by decide, by decide⟩, ?_⟩
  intro a b
  simp [KeyPrefixFee, KeyPrefixDeployer, KeyPrefixWithdraw, prefixFee, prefixDeployer,
    prefixWithdraw]

/-- C16: for every deployer address, `GetKeyPrefixDeployerFees` returns the deployer prefix
followed by the raw bytes of the address: the result has length `1 + len(address)` and its
first byte is the deployer prefix byte. -/
theorem deployer_key_construction (deployerAddress : AccAddress) :
    GetKeyPrefixDeployerFees deployerAddress = KeyPrefixDeployer ++ deployerAddress ∧
    (GetKeyPrefixDeployerFees deployerAddress).length = 1 + deployerAddress.length ∧
    (GetKeyPrefixDeployerFees deployerAddress).head? = some prefixDeployer ∧
    KeyPrefixDeployer <+: GetKeyPrefixDeployerFees deployerAddress := by
  refine ⟨rfl, ?_, rfl, ⟨deployerAddress, rfl⟩⟩
  simp [GetKeyPrefixDeployerFees, KeyPrefixDeployerFees, KeyPrefixDeployer]
  omega

/-- C18: whatever the invocation and its outcome, the context afterwards has the same
parameters, the same EVM denomination, the same fee registry (primary index and both reverse
indices), so every lookup returns the record it returned before; the bank calls have grown
by at most one transfer. -/
theorem registry_and_params_unchanged (k : Keeper) (ctx : Ctx) (msg : Message)
    (receipt : Receipt) :
    (PostTxProcessing k ctx msg receipt).2.params = ctx.params ∧
    (PostTxProcessing k ctx msg receipt).2.evmDenom = ctx.evmDenom ∧
    (PostTxProcessing k ctx msg receipt).2.fees = ctx.fees ∧
    (PostTxProcessing k ctx msg receipt).2.deployerIndex = ctx.deployerIndex ∧
    (PostTxProcessing k ctx msg receipt).2.withdrawIndex = ctx.withdrawIndex ∧
    (∀ contract, (PostTxProcessing k ctx msg receipt).2.fees contract = ctx.fees contract) ∧
    ∃ issued : List Transfer,
      (PostTxProcessing k ctx msg receipt).2.bankCalls = ctx.bankCalls ++ issued ∧
      issued.length ≤ 1 := by
  have hframe : ∀ (c : Ctx) (share : SdkInt) (w : String) (fee : Fee),
      (deferredTelemetry c share msg w fee).params = c.params ∧
      (deferredTelemetry c share msg w fee).evmDenom = c.evmDenom ∧
      (deferredTelemetry c share msg w fee).fees = c.fees ∧
      (deferredTelemetry c share msg w fee).deployerIndex = c.deployerIndex ∧
      (deferredTelemetry c share msg w fee).withdrawIndex = c.withdrawIndex := by
    intro c share w fee
    unfold deferredTelemetry
    split <;> exact ⟨rfl, rfl, rfl, rfl, rfl⟩
  rcases early_or_reached ctx msg with h | ⟨contract, fee, hen, hto, hfee⟩
  · rw [PostTxProcessing_early k ctx msg receipt h]
    exact ⟨rfl, rfl, rfl, rfl, rfl, fun _ => rfl, [], by simp, by simp⟩
  · rcases PostTxProcessing_reached k ctx msg receipt hen hto hfee with ⟨reason, h, _⟩ |
      ⟨share, recipient, _, _, ⟨err, _, h⟩ | ⟨_, h⟩⟩
    · rw [h]
      exact ⟨rfl, rfl, rfl, rfl, rfl, fun _ => rfl, [], by simp, by simp⟩
    · rw [h]
      exact ⟨rfl, rfl, rfl, rfl, rfl, fun _ => rfl, _, rfl, by simp⟩
    · rw [h]
      obtain ⟨f1, f2, f3, f4, f5⟩ := hframe
        { ctx with
          bankCalls := ctx.bankCalls ++
            [⟨k.feeCollectorName, recipient, [⟨ctx.evmDenom, share⟩]⟩]
          events := ctx.events ++
            [⟨EventTypeDistributeDevFee,
              [(AttributeKeySender, msg.From.hex), (AttributeKeyContract, contract.hex),
               (AttributeKeyWithdrawAddress, resolveWithdrawAddr fee)]⟩] }
        share (resolveWithdrawAddr fee) fee
      refine ⟨f1, f2, f3, f4, f5, fun c => by rw [f3],
        [⟨k.feeCollectorName, recipient, [⟨ctx.evmDenom, share⟩]⟩], ?_, ?_⟩
      · rw [deferredTelemetry_bankCalls]
      · simp

/-- C20: the deployer keys are injective: two addresses with the same key are the same byte
string, so two different deployers never share a key. -/
theorem deployer_key_injective (a b : AccAddress)
    (h : GetKeyPrefixDeployerFees a = GetKeyPrefixDeployerFees b) : a = b :=
  List.append_cancel_left h

/-- Witness of C20: the key of the address 7, 9 and, for two different addresses, two
different keys. -/
theorem deployer_key_injective_witness :
    GetKeyPrefixDeployerFees [7, 9] = [2, 7, 9] ∧
    GetKeyPrefixDeployerFees [7, 9] ≠ GetKeyPrefixDeployerFees [7, 8] ∧
    ([7, 9] : AccAddress) = [7, 9] :=
  ⟨by decide, by decide, deployer_key_injective [7, 9] [7, 9] rfl⟩


/-- C19: two contexts with the same parameters and EVM denomination whose registries return
the same lookup result for the target of the message (and may differ in every other record
and in both reverse indices) give, for the same keeper, message and receipt, the same
outcome, the same transfer handed to the bank keeper, the same event and the same sample. -/
theorem depends_only_on_target_record (k : Keeper) (ctx1 ctx2 : Ctx) (msg : Message)
    (receipt : Receipt)
    (hparams : ctx1.params = ctx2.params) (hdenom : ctx1.evmDenom = ctx2.evmDenom)
    (hlookup : ∀ contract, msg.To = some contract → ctx1.fees contract = ctx2.fees contract) :
    (PostTxProcessing k ctx1 msg receipt).1 = (PostTxProcessing k ctx2 msg receipt).1 ∧
    ∃ (issued : List Transfer) (emitted : List Event) (samples : List MetricSample),
      ((PostTxProcessing k ctx1 msg receipt).2.bankCalls = ctx1.bankCalls ++ issued ∧
        (PostTxProcessing k ctx2 msg receipt).2.bankCalls = ctx2.bankCalls ++ issued) ∧
      ((PostTxProcessing k ctx1 msg receipt).2.events = ctx1.events ++ emitted ∧
        (PostTxProcessing k ctx2 msg receipt).2.events = ctx2.events ++ emitted) ∧
      ((PostTxProcessing k ctx1 msg receipt).2.telemetry = ctx1.telemetry ++ samples ∧
        (PostTxProcessing k ctx2 msg receipt).2.telemetry = ctx2.telemetry ++ samples) := by
  rcases early_or_reached ctx1 msg with h | ⟨contract, fee, hen, hto, hfee⟩
  · have h2 : ctx2.params.EnableFees = false ∨ msg.To = none ∨
        ∃ contract, msg.To = some contract ∧ ctx2.fees contract = none := by
      rcases h with h | h | ⟨c, hc, hn⟩
      · exact Or.inl (hparams ▸ h)
      · exact Or.inr (Or.inl h)
      · exact Or.inr (Or.inr ⟨c, hc, (hlookup c hc) ▸ hn⟩)
    rw [PostTxProcessing_early k ctx1 msg receipt h, PostTxProcessing_early k ctx2 msg receipt h2]
    exact ⟨rfl, [], [], [], by simp, by simp, by simp⟩
  · have hen2 : ctx2.params.EnableFees = true := hparams ▸ hen
    have hfee2 : ctx2.fees contract = some fee := (hlookup contract hto) ▸ hfee
    cases hdf : developerFee ctx1.params msg receipt with
    | error reason =>
      have hdf2 : developerFee ctx2.params msg receipt = .error reason := hparams ▸ hdf
      rw [PostTxProcessing_panic_share k ctx1 msg receipt hen hto hfee hdf,
        PostTxProcessing_panic_share k ctx2 msg receipt hen2 hto hfee2 hdf2]
      exact ⟨rfl, [], [], [], by simp, by simp, by simp⟩
    | ok share =>
      have hdf2 : developerFee ctx2.params msg receipt = .ok share := hparams ▸ hdf
      cases hacc : k.accAddressFromBech32 (resolveWithdrawAddr fee) with
      | error reason =>
        rw [PostTxProcessing_panic_address k ctx1 msg receipt hen hto hfee hdf hacc,
          PostTxProcessing_panic_address k ctx2 msg receipt hen2 hto hfee2 hdf2 hacc]
        exact ⟨rfl, [], [], [], by simp, by simp, by simp⟩
      | ok recipient =>
        cases hbank : k.bankSend ⟨k.feeCollectorName, recipient, [⟨ctx1.evmDenom, share⟩]⟩ with
        | some err =>
          have hbank2 : k.bankSend ⟨k.feeCollectorName, recipient, [⟨ctx2.evmDenom, share⟩]⟩ =
              some err := hdenom ▸ hbank
          rw [PostTxProcessing_bank_error k ctx1 msg receipt hen hto hfee hdf hacc hbank,
            PostTxProcessing_bank_error k ctx2 msg receipt hen2 hto hfee2 hdf2 hacc hbank2]
          refine ⟨by rw [hdenom],
            [⟨k.feeCollectorName, recipient, [⟨ctx1.evmDenom, share⟩]⟩], [], [], ?_, ?_, ?_⟩
          · exact ⟨rfl, by rw [hdenom]⟩
          · simp
          · simp
        | none =>
          have hbank2 : k.bankSend ⟨k.feeCollectorName, recipient, [⟨ctx2.evmDenom, share⟩]⟩ =
              none := hdenom ▸ hbank
          rw [PostTxProcessing_sent k ctx1 msg receipt hen hto hfee hdf hacc hbank,
            PostTxProcessing_sent k ctx2 msg receipt hen2 hto hfee2 hdf2 hacc hbank2]
          refine ⟨rfl,
            [⟨k.feeCollectorName, recipient, [⟨ctx1.evmDenom, share⟩]⟩],
            [⟨EventTypeDistributeDevFee,
              [(AttributeKeySender, msg.From.hex), (AttributeKeyContract, contract.hex),
               (AttributeKeyWithdrawAddress, resolveWithdrawAddr fee)]⟩],
            (if share.IsInt64 = true then
              [⟨[ModuleName, "distribute", "total"], float32OfInt64 share.i,
                [("sender", msg.From.hex), ("withdrawer", resolveWithdrawAddr fee),
                 ("contract", fee.ContractAddress)]⟩]
            else []), ?_, ?_, ?_⟩
          · exact ⟨by rw [deferredTelemetry_bankCalls],
              by rw [deferredTelemetry_bankCalls, hdenom]⟩
          · exact ⟨by rw [deferredTelemetry_events], by rw [deferredTelemetry_events]⟩
          · exact ⟨by rw [deferredTelemetry_telemetry], by rw [deferredTelemetry_telemetry]⟩

/-- Witness of C19: the registry of the examples and one with a second record, for another
contract, and other reverse indices: the same transfer of 250. -/
theorem depends_only_on_target_record_witness :
    (PostTxProcessing exKeeper
      { exCtx (5 * 10 ^ 17) "" with
        fees := fun a => if a = exC then some ⟨"C", "D", ""⟩ else some ⟨"E", "W", "W"⟩
        deployerIndex := fun _ => [exC]
        withdrawIndex := fun _ => [exS] }
      (exMsg 10) ⟨50⟩).2.bankCalls = [⟨"fee_collector", [1], [⟨"aevmos", ⟨250⟩⟩]⟩] ∧
    (PostTxProcessing exKeeper (exCtx (5 * 10 ^ 17) "") (exMsg 10) ⟨50⟩).1 =
      (PostTxProcessing exKeeper
        { exCtx (5 * 10 ^ 17) "" with
          fees := fun a => if a = exC then some ⟨"C", "D", ""⟩ else some ⟨"E", "W", "W"⟩
          deployerIndex := fun _ => [exC]
          withdrawIndex := fun _ => [exS] }
        (exMsg 10) ⟨50⟩).1 :=
  ⟨by decide,
   (depends_only_on_target_record exKeeper (exCtx (5 * 10 ^ 17) "")
      { exCtx (5 * 10 ^ 17) "" with
        fees := fun a => if a = exC then some ⟨"C", "D", ""⟩ else some ⟨"E", "W", "W"⟩
        deployerIndex := fun _ => [exC]
        withdrawIndex := fun _ => [exS] }
      (exMsg 10) ⟨50⟩ rfl rfl
      (fun contract h => by
        have hc : contract = exC := by
          simp only [exMsg, Option.some.injEq] at h
          exact h.symm
        subst hc
        rfl)).1⟩

end Fees
